import Mathlib

/-!
# Valkyrie: the Memcheck tool object (memcheck_object.cpp)

A shallow embedding of `class Memcheck`: the run-state machine
(`start`, `stop`, `readVgLog`, `processDone`) and the log saving step
(`saveParsedOutput`).

Conventions of the embedding

* The object's fields are the fields of `Memcheck`; every member function takes
  the object and returns the updated object.
* A failed `vk_assert` aborts the program: the function returns `none`.
* Everything the object does to the outside (status-bar messages, message
  boxes, calls on the reader / the process / the poller / the file system,
  `setRunState`) is appended, in program order, to the field `trace`.
* What the outside answers (did the process start, what did the reader find in
  the log, ...) is passed in as an argument.
-/

namespace Valkyrie

/-! ## Data model -/

/-- The values of `VkRunState::State` used by the tool object. -/
inductive RunState
  | STOPPED
  | VALGRIND
  | TOOL1
  | TOOL2
  deriving DecidableEq, Repr

/-- The answers of a `vkQuery` message box. -/
inductive MsgBox
  | vkYes
  | vkNo
  | vkCancel
  deriving DecidableEq, Repr

/-- An argument of a printf-style message.  The library functions applied to an
argument at the call site are kept symbolically. -/
inductive Arg
  | str (s : String)
  | int (i : Int)
  | escapeEntities (s : String)
  | str2html (s : String)
  | parseErrString (errval : Int)
  deriving DecidableEq, Repr

/-- What the object does to the outside, in program order. -/
inductive Event
  /-- The signal `message( text )` emitted by `statusMsg`. -/
  | message (text : String)
  /-- A call `vkError( view(), title, fmt, args... )`. -/
  | vkError (title fmt : String) (args : List Arg)
  /-- A call `vkInfo( view(), title, fmt, args... )`. -/
  | vkInfo (title fmt : String) (args : List Arg)
  /-- A call `vkQuery( view(), ..., title, fmt, args... )`. -/
  | vkQuery (title fmt : String) (args : List Arg)
  /-- A call `setRunState( rs )`. -/
  | setRunState (rs : RunState)
  /-- A call `qApp->processEvents( msecs )`. -/
  | processEvents (msecs : Nat)
  /-- A call `m_logpoller->start()`. -/
  | pollerStart
  /-- A call `m_logpoller->stop()`. -/
  | pollerStop
  /-- A call `reader->parse( fname, allowEmpty )`. -/
  | readerParse (fname : String) (allowEmpty : Bool)
  /-- A call `m_vgreader->parseContinue()`. -/
  | parseContinue
  /-- A call `m_vgproc->start()` on a process made from `flags`. -/
  | procStart (flags : List String)
  /-- A call `m_vgproc->stop()`. -/
  | procStop
  /-- A call `QDir().rename( src, dst )`. -/
  | rename (src dst : String)
  /-- A call `QUrlOperator::copy( src, dst, false, false )`. -/
  | copy (src dst : String)
  deriving DecidableEq, Repr

/-- The part of `VgLogHandler` the tool object reads: `finished()` and
`fatalMsg()`. -/
structure VgLogHandler where
  finished : Bool
  fatalMsg : String
  deriving DecidableEq, Repr

/-- The object behind `m_vgreader`. -/
structure VgLogReader where
  handler : VgLogHandler
  deriving DecidableEq, Repr

/-- The object behind `m_vgproc`: a process made from a flag list;
`setCommunication( 0 )` is recorded in `communication`. -/
structure VKProcess where
  flags : List String
  communication : Option Nat
  deriving DecidableEq, Repr

/-- The fields of `class Memcheck`.  `m_logpoller` is allocated by the
constructor and never freed, so only whether it is polling is kept;
`view` says whether `view() != 0`. -/
structure Memcheck where
  runState : RunState
  fileSaved : Bool
  saveFname : String
  vgproc : Option VKProcess
  vgreader : Option VgLogReader
  logpollerActive : Bool
  view : Bool
  trace : List Event
  deriving DecidableEq, Repr

/-- The object after `Memcheck::Memcheck` and `createView`: `m_fileSaved = true`,
no process, no reader, a poller that is not polling, state `STOPPED`. -/
def Memcheck.init : Memcheck :=
  { runState := .STOPPED, fileSaved := true, saveFname := "",
    vgproc := none, vgreader := none, logpollerActive := false,
    view := true, trace := [.setRunState .STOPPED] }

/-- Append one event to the trace. -/
def emit (e : Event) (m : Memcheck) : Memcheck :=
  { m with trace := m.trace ++ [e] }

/-- The call `ToolObject::setRunState`. -/
def setRunState (rs : RunState) (m : Memcheck) : Memcheck :=
  emit (.setRunState rs) { m with runState := rs }

/-- The call `ToolObject::isRunning`. -/
def isRunning (m : Memcheck) : Bool :=
  m.runState != .STOPPED

/-- The function `Memcheck::statusMsg`: `emit message( hdr + ": " + msg )`. -/
def statusMsg (hdr msg : String) (m : Memcheck) : Memcheck :=
  emit (.message (hdr ++ ": " ++ msg)) m

/-! ## `QStringList::gres` -/

/-- Whether the characters `s` start with the characters `pat`. -/
def startsWith : List Char → List Char → Bool
  | [], _ => true
  | _ :: _, [] => false
  | p :: ps, c :: cs => p == c && startsWith ps cs

/-- The loop of `QString::replace( before, after )` for a non-empty `before`:
scan left to right, replace each occurrence found and go on behind it.
`skip` counts the characters of a found occurrence still to be dropped. -/
def replaceFrom (before after : List Char) : Nat → List Char → List Char
  | _, [] => []
  | skip + 1, _ :: cs => replaceFrom before after skip cs
  | 0, c :: cs =>
    if startsWith before (c :: cs) then
      after ++ replaceFrom before after (before.length - 1) cs
    else
      c :: replaceFrom before after 0 cs

/-- The call `s.replace( before, after )` of Qt for a non-empty `before`
(an empty `before` is never passed by this program; the string is then left
alone). -/
def qreplace (before after s : String) : String :=
  if before.data = [] then s
  else String.mk (replaceFrom before.data after.data 0 s.data)

/-- The call `list.gres( before, after )` of Qt: replace in every string of
the list. -/
def gres (before after : String) (l : List String) : List String :=
  l.map (qreplace before after)

/-- Whether the characters `pat` occur somewhere in the characters `s`. -/
def containsText (pat : List Char) : List Char → Bool
  | [] => startsWith pat []
  | c :: cs => startsWith pat (c :: cs) || containsText pat cs

/-! ## Starting a run -/

/-- What the outside answers while a process-backed run is started. -/
structure StartEnv where
  /-- The function `vk_mkstemp( filepath, ext )`. -/
  vk_mkstemp : String → String → String
  /-- The value of `vkConfig->logsDir()`. -/
  logsDir : String
  /-- The function `vkConfig->rdEntry( key, section )`. -/
  rdEntry : String → String → String
  /-- The result of `m_vgreader->parse( m_saveFname, true )`. -/
  parseOk : Bool
  /-- The handler of the new reader after that call. -/
  handler : VgLogHandler
  /-- The result of `m_vgproc->start()`. -/
  procStartOk : Bool
  /-- The result of `m_logpoller->start()`. -/
  pollerStartOk : Bool

/-- The label `failed_startup:` of `startProcess`: stop the poller, delete the
reader, delete the process. -/
def failed_startup (m : Memcheck) : Memcheck :=
  let m := emit .pollerStop { m with logpollerActive := false }
  let m := { m with vgreader := none }
  { m with vgproc := none }

/-- The function `Memcheck::startProcess`. -/
def startProcess (env : StartEnv) (flags : List String) (m : Memcheck) :
    Option (Bool × Memcheck) :=
  if m.view = false then none
  else if m.vgreader ≠ none then none
  else
    let m := { m with vgreader := some ⟨env.handler⟩ }
    let m := emit (.readerParse m.saveFname true) m
    if env.parseOk = false then
      let errMsg := env.handler.fatalMsg
      let m := emit (.vkError "Process Startup Error"
        "<p>Failed to start XML parser:<br>%s</p>" [.str errMsg]) m
      some (false, failed_startup m)
    else if m.vgproc ≠ none then none
    else
      let m := { m with vgproc := some ⟨flags, some 0⟩ }
      let m := emit (.procStart flags) m
      if env.procStartOk = false then
        let path_errmsg :=
          if m.runState = .VALGRIND then
            "Please verify the path to Valgrind in Options::Valkyrie."
          else ""
        let m := emit (.vkError "Process Startup Error"
          "<p>Failed to start process:<br>%s<br><br>%s</p>"
          [.str (" ".intercalate flags), .str path_errmsg]) m
        some (false, failed_startup m)
      else
        let m := emit .pollerStart m
        if env.pollerStartOk = false then
          let m := emit (.vkError "Process Startup Error"
            "<p>Failed to start log poller.</p>" []) m
          some (false, failed_startup m)
        else
          some (true, { m with logpollerActive := true })

/-- The function `Memcheck::runValgrind`, with the branch for Qt 3.2 and later
(`vgflags.gres`) of the step that fills in the file name. -/
def runValgrind (env : StartEnv) (vgflags : List String) (m : Memcheck) :
    Option (Bool × Memcheck) :=
  let m := { m with saveFname := env.vk_mkstemp (env.logsDir ++ "mc_log") "xml" }
  if m.saveFname = "" then none
  else
    let vgflags :=
      gres "--log-file-exactly" ("--log-file-exactly=" ++ m.saveFname) vgflags
    let m := setRunState .VALGRIND m
    let m := { m with fileSaved := false }
    let m := statusMsg "Memcheck" "Running ... " m
    match startProcess env vgflags m with
    | none => none
    | some (ok, m) =>
      if ok = false then
        let m := statusMsg "Memcheck" "Failed" m
        let m := { m with fileSaved := true }
        some (ok, setRunState .STOPPED m)
      else some (ok, m)

/-- The function `Memcheck::mergeLogFiles`. -/
def mergeLogFiles (env : StartEnv) (m : Memcheck) : Option (Bool × Memcheck) :=
  let fname_logList := env.rdEntry "merge" "valkyrie"
  let m := statusMsg "Merging logs in file-list" fname_logList m
  let m := { m with saveFname := env.vk_mkstemp (env.logsDir ++ "mc_merged") "xml" }
  if m.saveFname = "" then none
  else
    let flags :=
      [env.rdEntry "merge-exec" "valkyrie", "-f", fname_logList, "-o", m.saveFname]
    let m := setRunState .TOOL2 m
    let m := { m with fileSaved := false }
    let m := statusMsg "Merge Logs" "Running ... " m
    match startProcess env flags m with
    | none => none
    | some (ok, m) =>
      if ok = false then
        let m := statusMsg "Merge Logs" "Failed" m
        let m := { m with fileSaved := true }
        some (ok, setRunState .STOPPED m)
      else some (ok, m)

/-! ## Parsing an existing log -/

/-- What the outside answers while an existing log is parsed. -/
structure ParseEnv where
  /-- The function `vkConfig->rdEntry( key, section )`. -/
  rdEntry : String → String → String
  /-- The constant `PARSED_OK` of vk_option.h. -/
  PARSED_OK : Int
  /-- The error value set by `fileCheck( &errval, log_file, true, false )`. -/
  errval : Int
  /-- The file name returned by that call. -/
  ret_file : String
  /-- The result of `vgLogFileReader.parse( log_file )`. -/
  success : Bool
  /-- The value of `hnd->fatalMsg()` after that call. -/
  fatalMsg : String

/-- The function `Memcheck::parseLogFile` up to and including the call
`qApp->processEvents`: the file check, then `m_fileSaved = true` and
`setRunState( TOOL1 )`.  The flag is false when the function has returned
false (file check failed). -/
def parseLogFileCheck (env : ParseEnv) (m : Memcheck) : Option (Bool × Memcheck) :=
  if m.view = false then none
  else
    let log_file := env.rdEntry "view-log" "valkyrie"
    let m := statusMsg "Parsing" log_file m
    if env.errval ≠ env.PARSED_OK then
      let m := emit (.vkError "File Error" "%s: \n\"%s\""
        [.parseErrString env.errval, .escapeEntities log_file]) m
      some (false, m)
    else
      let m := { m with fileSaved := true }
      let m := setRunState .TOOL1 m
      some (true, emit (.processEvents 1000) m)

/-- The function `Memcheck::parseLogFile` after the call
`qApp->processEvents`: parse the log with a local reader, report, and
`setRunState( STOPPED )`. -/
def parseLogFileParse (env : ParseEnv) (m : Memcheck) : Bool × Memcheck :=
  let log_file := env.ret_file
  let m := emit (.readerParse log_file false) m
  let m :=
    if env.success = false then
      let m := statusMsg "Parsing" "Error" m
      emit (.vkError "XML Parse Error" "<p>%s</p>" [.escapeEntities env.fatalMsg]) m
    else m
  let m :=
    if env.success then
      let m := { m with saveFname := log_file }
      statusMsg "Loaded" log_file m
    else
      statusMsg "Parse failed" log_file m
  (env.success, setRunState .STOPPED m)

/-- The function `Memcheck::parseLogFile`. -/
def parseLogFile (env : ParseEnv) (m : Memcheck) : Option (Bool × Memcheck) :=
  match parseLogFileCheck env m with
  | none => none
  | some (false, m) => some (false, m)
  | some (true, m) => some (parseLogFileParse env m)

/-! ## `start` and `stop` -/

/-- What the outside answers to a `start`: the answers for a process-backed run
and those for parsing an existing log. -/
structure Env where
  run : StartEnv
  log : ParseEnv

/-- The function `Memcheck::start`. -/
def start (rs : RunState) (env : Env) (vgflags : List String) (m : Memcheck) :
    Option (Bool × Memcheck) :=
  if rs = .STOPPED then none
  else if isRunning m then none
  else
    match rs with
    | .VALGRIND => runValgrind env.run vgflags m
    | .TOOL1 => parseLogFile env.log m
    | .TOOL2 => mergeLogFiles env.run m
    | .STOPPED => none

/-- The function `Memcheck::stop`; `procRunning` is what
`m_vgproc->isRunning()` answers. -/
def stop (procRunning : Bool) (m : Memcheck) : Option (Bool × Memcheck) :=
  if isRunning m = false then none
  else
    match m.runState with
    | .VALGRIND =>
      if m.vgproc ≠ none ∧ procRunning then some (true, emit .procStop m)
      else some (true, m)
    | .TOOL1 => some (true, m)
    | .TOOL2 =>
      if m.vgproc ≠ none ∧ procRunning then some (true, emit .procStop m)
      else some (true, m)
    | .STOPPED => none

/-! ## Reading the log and the end of the process -/

/-- What `m_vgreader->parseContinue()` does: from the handler as it is, the
result of the call and the handler afterwards. -/
abbrev ParseContinue := VgLogHandler → Bool × VgLogHandler

/-- The function `Memcheck::readVgLog`; `procRunning` is what
`m_vgproc->isRunning()` answers. -/
def readVgLog (cont : ParseContinue) (procRunning : Bool) (m : Memcheck) :
    Option Memcheck :=
  if m.view = false then none
  else
    match m.vgreader, m.vgproc with
    | some rd, some _ =>
      let r := cont rd.handler
      let m := emit .parseContinue { m with vgreader := some ⟨r.2⟩ }
      if r.1 = false then
        if procRunning then some (emit .procStop m) else some m
      else some m
    | _, _ => none

/-- The block "did log parsing go ok?" of `processDone`: the error reports for
the handler `h`, and the value of `runError`. -/
def reportParse (h : VgLogHandler) (m : Memcheck) : Bool × Memcheck :=
  if h.fatalMsg ≠ "" then
    if m.runState = .VALGRIND then
      let m := statusMsg "Memcheck" "Error parsing output log" m
      (true, emit (.vkError "XML Parse Error"
        "<p>Error parsing Valgrind XML output:<br>%s</p>" [.str2html h.fatalMsg]) m)
    else
      let m := statusMsg "Merge Logs" "Error parsing output log" m
      (true, emit (.vkError "Parse Error" "<p>Error parsing output log</p>" []) m)
  else if h.finished = false then
    if m.runState = .VALGRIND then
      let m := statusMsg "Memcheck" "Error - incomplete output log" m
      (true, emit (.vkError "XML Parse Error"
        "<p>Valgrind XML output is incomplete</p>" []) m)
    else
      let m := statusMsg "Merge Logs" "Error - incomplete output log" m
      (true, emit (.vkError "Parse Error" "<p>Failed to parse merge result</p>" []) m)
  else (false, m)

/-- The report of `processDone` for a process that did not exit with 0.  The
argument printed is the `bool exitStatus`, that is 1.  (The runs of blanks that
the line continuations of the source leave in the format strings are written as
one blank.) -/
def exitReport (rs : RunState) (exitStatus : Bool) : Event :=
  if rs = .VALGRIND then
    .vkError "Run Error"
      "<p>Process exited with return value %d.<br> This is likely to simply be the client program return value.  If, however, you suspect Valgrind itself may have crashed, please 'Save Log' and examine for details.</p>"
      [.int (if exitStatus then 1 else 0)]
  else
    .vkError "Parse Error"
      "<p>Merge process exited with return value %d.<br> Please check the terminal for error messages.</p>"
      [.int (if exitStatus then 1 else 0)]

/-- The block "check process exit status" of `processDone`:
`bool exitStatus = m_vgproc->exitStatus()` and the report when it is set. -/
def reportExit (exitCode : Int) (m : Memcheck) : Memcheck :=
  let exitStatus : Bool := decide (exitCode ≠ 0)
  if exitStatus then emit (exitReport m.runState exitStatus) m else m

/-- The function `Memcheck::processDone`; `exitCode` is what
`m_vgproc->exitStatus()` answers. -/
def processDone (cont : ParseContinue) (procRunning : Bool) (exitCode : Int)
    (m : Memcheck) : Option Memcheck :=
  match m.vgproc, m.vgreader with
  | some _, some rd =>
    let m := emit .pollerStop { m with logpollerActive := false }
    let drained :=
      if rd.handler.finished = false ∧ rd.handler.fatalMsg = "" then
        readVgLog cont procRunning m
      else some m
    match drained with
    | none => none
    | some m =>
      match m.vgreader with
      | none => none
      | some rd =>
        let (runError, m) := reportParse rd.handler m
        let m := reportExit exitCode m
        let m := { m with vgreader := none }
        let m := { m with vgproc := none }
        let m :=
          if runError = false then
            if m.runState = .VALGRIND then statusMsg "Memcheck" "Finished" m
            else statusMsg "Merge Logs" "Finished" m
          else m
        some (setRunState .STOPPED m)
  | _, _ => none

/-! ## Saving the log -/

/-- The files that exist, by path. -/
abbrev Disk := List String

/-- What the outside answers while the log is saved. -/
structure SaveEnv where
  /-- The function `QFileInfo( fname ).absFilePath()`. -/
  absFilePath : String → String
  /-- The answer to the "Overwrite File" query. -/
  overwrite : MsgBox
  /-- Whether the file system lets the rename or the copy go through. -/
  ioOk : Bool

/-- The call `QDir().rename( src, dst )`: succeeds when `src` exists and the
file system lets it through; then `src` is gone and `dst` exists. -/
def diskRename (ioOk : Bool) (src dst : String) (disk : Disk) : Bool × Disk :=
  if ioOk ∧ src ∈ disk then (true, dst :: disk.filter (fun p => p ≠ src ∧ p ≠ dst))
  else (false, disk)

/-- The call `QUrlOperator::copy( src, dst, false, false )`: goes through when
`src` exists and the file system lets it through; then `dst` exists too. -/
def diskCopy (ioOk : Bool) (src dst : String) (disk : Disk) : Bool × Disk :=
  if ioOk ∧ src ∈ disk then (true, dst :: disk.filter (fun p => p ≠ dst))
  else (false, disk)

/-- The function `Memcheck::saveParsedOutput`.  The in/out parameter `fname`
ends as `absFilePath fname`. -/
def saveParsedOutput (env : SaveEnv) (fname : String) (m : Memcheck) (disk : Disk) :
    Option (Bool × Memcheck × Disk) :=
  if m.view = false then none
  else if fname = "" then none
  else
    let fname := env.absFilePath fname
    let asked := decide (fname ∈ disk)
    let m :=
      if asked then
        emit (.vkQuery "Overwrite File" "<p>Over-write existing file '%s' ?</p>"
          [.str fname]) m
      else m
    if asked ∧ env.overwrite = .vkNo then some (false, m, disk)
    else
      let (ok, m, disk) :=
        if m.fileSaved = false then
          let r := diskRename env.ioOk m.saveFname fname disk
          (r.1, emit (.rename m.saveFname fname) m, r.2)
        else
          let r := diskCopy env.ioOk m.saveFname fname disk
          (true, emit (.copy m.saveFname fname) m, r.2)
      if ok then
        let m := { m with saveFname := fname }
        let m := { m with fileSaved := true }
        some (ok, statusMsg "Saved" m.saveFname m, disk)
      else
        let m := emit (.vkInfo "Save Failed" "<p>Failed to save file to '%s'"
          [.str fname]) m
        some (ok, statusMsg "Failed Save" m.saveFname m, disk)

/-! ## Reading a trace -/

/-- The status-bar messages of a trace, in order. -/
def messages (t : List Event) : List String :=
  t.filterMap fun e => match e with
    | .message s => some s
    | _ => none

/-- The error reports (`vkError`) of a trace, in order. -/
def errorReports (t : List Event) : List Event :=
  t.filter fun e => match e with
    | .vkError _ _ _ => true
    | _ => false

/-- The run states written by `setRunState` in a trace, in order. -/
def runStateWrites (t : List Event) : List RunState :=
  t.filterMap fun e => match e with
    | .setRunState rs => some rs
    | _ => none

/-! ## The outcome of a run, in the words of the specification -/

/-- The parse outcomes the specification names. -/
inductive Outcome
  | ParseOk
  | IncompleteOutput
  | FatalParseError
  deriving DecidableEq, Repr

/-- The classification as the specification words it: a fatal message present
gives `FatalParseError`; else not finished gives `IncompleteOutput`; else
`ParseOk`. -/
def classify (h : VgLogHandler) : Outcome :=
  if h.fatalMsg ≠ "" then .FatalParseError
  else if h.finished = false then .IncompleteOutput
  else .ParseOk

/-- The handler as `processDone` finds it after its last read: one more
`parseContinue` when it was not finished and had no fatal message. -/
def drained (cont : ParseContinue) (h : VgLogHandler) : VgLogHandler :=
  if h.finished = false ∧ h.fatalMsg = "" then (cont h).2 else h

/-- The header of the status messages of a process-backed run. -/
def header (rs : RunState) : String :=
  if rs = .VALGRIND then "Memcheck" else "Merge Logs"

/-- The text of the final status message for an outcome. -/
def outcomeText : Outcome → String
  | .ParseOk => "Finished"
  | .IncompleteOutput => "Error - incomplete output log"
  | .FatalParseError => "Error parsing output log"

/-! ## The events of `processDone` -/

/-- The events of the last read of `processDone`: one `parseContinue` when the
handler was not finished and had no fatal message, and a stop request when that
call failed while the process was running. -/
def drainEvents (cont : ParseContinue) (procRunning : Bool) (h : VgLogHandler) :
    List Event :=
  if h.finished = false ∧ h.fatalMsg = "" then
    .parseContinue ::
      (if (cont h).1 = false ∧ procRunning = true then [.procStop] else [])
  else []

/-- The events of `reportParse` in state `rs` for the handler `h`. -/
def parseReports (rs : RunState) (h : VgLogHandler) : List Event :=
  if h.fatalMsg ≠ "" then
    [.message (header rs ++ ": " ++ "Error parsing output log"),
     if rs = .VALGRIND then
       .vkError "XML Parse Error"
         "<p>Error parsing Valgrind XML output:<br>%s</p>" [.str2html h.fatalMsg]
     else .vkError "Parse Error" "<p>Error parsing output log</p>" []]
  else if h.finished = false then
    [.message (header rs ++ ": " ++ "Error - incomplete output log"),
     if rs = .VALGRIND then
       .vkError "XML Parse Error" "<p>Valgrind XML output is incomplete</p>" []
     else .vkError "Parse Error" "<p>Failed to parse merge result</p>" []]
  else []

/-- The events of `reportExit` in state `rs` for the exit code `exitCode`. -/
def exitEvents (rs : RunState) (exitCode : Int) : List Event :=
  if exitCode ≠ 0 then [exitReport rs true] else []

/-- The "Finished" message of `processDone`, emitted when no parse error was
reported. -/
def finishedEvents (rs : RunState) (h : VgLogHandler) : List Event :=
  if h.fatalMsg = "" ∧ h.finished = true then
    [.message (header rs ++ ": " ++ "Finished")]
  else []

/-- All the events of one `processDone`, in order. -/
def doneEvents (cont : ParseContinue) (procRunning : Bool) (exitCode : Int)
    (rs : RunState) (h : VgLogHandler) : List Event :=
  .pollerStop :: drainEvents cont procRunning h ++ parseReports rs (drained cont h) ++
    exitEvents rs exitCode ++ finishedEvents rs (drained cont h) ++ [.setRunState .STOPPED]

/-! ## Concrete inputs -/

/-- Answers used to run the object on concrete inputs: the three flags say
whether the reader's first parse, the process start and the poller start go
through. -/
def sampleEnv (parseOk procStartOk pollerStartOk : Bool) : Env :=
  { run :=
      { vk_mkstemp := fun p e => p ++ "_0001." ++ e, logsDir := "/logs/",
        rdEntry := fun k _ => "/cfg/" ++ k,
        parseOk := parseOk, handler := ⟨false, ""⟩,
        procStartOk := procStartOk, pollerStartOk := pollerStartOk },
    log :=
      { rdEntry := fun _ _ => "/old/run.xml", PARSED_OK := 0, errval := 0,
        ret_file := "/old/run.xml", success := true, fatalMsg := "" } }

/-- The object `Memcheck.init` after `start( VALGRIND, flags )` went through
under `sampleEnv true true true`, the process having been handed `handed`. -/
def sampleStarted (handed : List String) : Memcheck :=
  { runState := .VALGRIND, fileSaved := false, saveFname := "/logs/mc_log_0001.xml",
    vgproc := some ⟨handed, some 0⟩, vgreader := some ⟨⟨false, ""⟩⟩,
    logpollerActive := true, view := true,
    trace := [.setRunState .STOPPED, .setRunState .VALGRIND,
      .message "Memcheck: Running ... ", .readerParse "/logs/mc_log_0001.xml" true,
      .procStart handed, .pollerStart] }

/-- A running object in state `rs` with an empty trace, the reader's handler
being `h`. -/
def sampleRun (rs : RunState) (h : VgLogHandler) : Memcheck :=
  { runState := rs, fileSaved := false, saveFname := "/logs/mc_log_0001.xml",
    vgproc := some ⟨["--flag=1"], some 0⟩, vgreader := some ⟨h⟩,
    logpollerActive := true, view := true, trace := [] }


/-! ## States of the object -/

/-- The pipeline is consistent: the process and the reader are both there or
both not; they are there exactly in the states VALGRIND and TOOL2; in state
STOPPED they are not there and the poller is stopped. -/
def Consistent (m : Memcheck) : Prop :=
  (m.vgproc.isSome = m.vgreader.isSome) ∧
  (m.vgproc.isSome = true ↔ (m.runState = .VALGRIND ∨ m.runState = .TOOL2)) ∧
  (m.runState = .STOPPED →
    m.vgproc = none ∧ m.vgreader = none ∧ m.logpollerActive = false)

/-- The states the object can be found in: the state after construction, the
state at the return of `start`, `stop`, `readVgLog`, `processDone` and
`saveParsedOutput`, and the state in which `start( TOOL1 )` parses the log (the
state at its call of `qApp->processEvents`).  With `saveAnyTime = false` the
log is saved in state STOPPED only. -/
inductive Reachable (saveAnyTime : Bool) : Memcheck → Prop
  | init : Reachable saveAnyTime Memcheck.init
  | start (rs : RunState) (env : Env) (flags : List String) (m m' : Memcheck)
      (ok : Bool) : Reachable saveAnyTime m →
      Valkyrie.start rs env flags m = some (ok, m') → Reachable saveAnyTime m'
  | parsing (env : Env) (m m' : Memcheck) : Reachable saveAnyTime m →
      isRunning m = false → parseLogFileCheck env.log m = some (true, m') →
      Reachable saveAnyTime m'
  | stop (procRunning : Bool) (m m' : Memcheck) (ok : Bool) :
      Reachable saveAnyTime m →
      Valkyrie.stop procRunning m = some (ok, m') → Reachable saveAnyTime m'
  | readVgLog (cont : ParseContinue) (procRunning : Bool) (m m' : Memcheck) :
      Reachable saveAnyTime m →
      Valkyrie.readVgLog cont procRunning m = some m' → Reachable saveAnyTime m'
  | processDone (cont : ParseContinue) (procRunning : Bool) (exitCode : Int)
      (m m' : Memcheck) : Reachable saveAnyTime m →
      Valkyrie.processDone cont procRunning exitCode m = some m' →
      Reachable saveAnyTime m'
  | save (env : SaveEnv) (fname : String) (m m' : Memcheck) (disk disk' : Disk)
      (ok : Bool) : Reachable saveAnyTime m →
      (saveAnyTime = true ∨ m.runState = .STOPPED) →
      saveParsedOutput env fname m disk = some (ok, m', disk') →
      Reachable saveAnyTime m'

/-- Answers for saving on concrete inputs: paths are absolute already, the
overwrite query is answered yes, and `ioOk` says whether the file system lets
the operation through. -/
def sampleSave (ioOk : Bool) : SaveEnv :=
  { absFilePath := fun s => s, overwrite := .vkYes, ioOk := ioOk }

/-- The object `Memcheck.init` inside `start( TOOL1 )` under `sampleEnv`, at the
call of `qApp->processEvents`. -/
def sampleParsing : Memcheck :=
  { runState := .TOOL1, fileSaved := true, saveFname := "", vgproc := none,
    vgreader := none, logpollerActive := false, view := true,
    trace := [.setRunState .STOPPED, .message "Parsing: /old/run.xml",
      .setRunState .TOOL1, .processEvents 1000] }

/-- The object `sampleStarted handed` after its log was saved to
`/home/run.xml` while the process runs. -/
def sampleSavedRunning (handed : List String) : Memcheck :=
  { sampleStarted handed with
    fileSaved := true, saveFname := "/home/run.xml",
    trace := (sampleStarted handed).trace ++
      [.rename "/logs/mc_log_0001.xml" "/home/run.xml", .message "Saved: /home/run.xml"] }

/-- A stopped object whose log was saved to `/home/run.xml` before. -/
def sampleSaved : Memcheck :=
  { runState := .STOPPED, fileSaved := true, saveFname := "/home/run.xml",
    vgproc := none, vgreader := none, logpollerActive := false, view := true,
    trace := [] }

/-- A stopped object whose log is still in the temp file. -/
def sampleUnsaved : Memcheck :=
  { runState := .STOPPED, fileSaved := false, saveFname := "/logs/mc_log_0001.xml",
    vgproc := none, vgreader := none, logpollerActive := false, view := true,
    trace := [] }

/-! ## The options of the tool -/

/-- The keys of the options of Memcheck (`Memcheck::mcOpts`), in the order in
which the constructor adds the options. -/
inductive mcOpts
  | LEAK_CHECK
  | LEAK_RES
  | SHOW_REACH
  | UNDEF_VAL
  | PARTIAL
  | FREELIST
  | GCC_296
  | ALIGNMENT
  deriving DecidableEq, Repr

/-- The fields of `class Option` (vk_option.h) that `modifiedVgFlags` reads. -/
structure VkOption where
  m_key : mcOpts
  m_shortFlag : Char
  m_longFlag : String
  m_defaultValue : String
  deriving DecidableEq, Repr

/-- The function `Memcheck::modifiedVgFlags`: the loop over `m_optList`, with
`modFlags` as the accumulator.  `rdEntry` is `vkConfig->rdEntry` and `name` is
`name()`.  (The local `flag` of the source is assigned and never read.) -/
def modifiedVgFlags (rdEntry : String → String → String) (name : String)
    (m_optList : List VkOption) : List String :=
  m_optList.foldl (fun modFlags opt =>
    let defVal := opt.m_defaultValue
    let cfgVal := rdEntry opt.m_longFlag name
    match opt.m_key with
    | .LEAK_CHECK => modFlags
    | _ =>
      if defVal ≠ cfgVal then modFlags ++ ["--" ++ opt.m_longFlag ++ "=" ++ cfgVal]
      else modFlags) []

/-- The option list the constructor `Memcheck::Memcheck` builds with `addOpt`:
key, short flag, long flag and default value of each option. -/
def memcheckOpts : List VkOption :=
  [ ⟨.LEAK_CHECK, Char.ofNat 0, "leak-check", "full"⟩,
    ⟨.LEAK_RES, Char.ofNat 0, "leak-resolution", "low"⟩,
    ⟨.SHOW_REACH, Char.ofNat 0, "show-reachable", "no"⟩,
    ⟨.UNDEF_VAL, Char.ofNat 0, "undef-value-errors", "yes"⟩,
    ⟨.PARTIAL, Char.ofNat 0, "partial-loads-ok", "no"⟩,
    ⟨.FREELIST, Char.ofNat 0, "freelist-vol", "5000000"⟩,
    ⟨.GCC_296, Char.ofNat 0, "workaround-gcc296-bugs", "no"⟩,
    ⟨.ALIGNMENT, Char.ofNat 0, "alignment", "8"⟩ ]

/-- Whether the option contributes a flag: it is not LEAK_CHECK and its
configured value differs from its default value. -/
def isModified (rdEntry : String → String → String) (name : String) (opt : VkOption) :
    Bool :=
  decide (opt.m_key ≠ .LEAK_CHECK) && decide (opt.m_defaultValue ≠ rdEntry opt.m_longFlag name)

/-- The flag string of an option: `--`, the long flag, `=`, the configured
value. -/
def flagString (rdEntry : String → String → String) (name : String) (opt : VkOption) :
    String :=
  "--" ++ opt.m_longFlag ++ "=" ++ rdEntry opt.m_longFlag name

/-- A config store for concrete inputs: leak check set to `summary`, leak
resolution set to `high`, alignment set to `16`, every other entry at the
default of `memcheckOpts`. -/
def sampleConfig (key _section : String) : String :=
  if key = "leak-check" then "summary"
  else if key = "leak-resolution" then "high"
  else if key = "show-reachable" then "no"
  else if key = "undef-value-errors" then "yes"
  else if key = "partial-loads-ok" then "no"
  else if key = "freelist-vol" then "5000000"
  else if key = "workaround-gcc296-bugs" then "no"
  else if key = "alignment" then "16"
  else ""

/-- Answers for a `start( TOOL1 )` on concrete inputs where the configured log
`/no/such.xml` fails the file check (error value 2, `PARSED_OK` being 0). -/
def sampleEnvMissing : Env :=
  { run := (sampleEnv true true true).run,
    log :=
      { rdEntry := fun _ _ => "/no/such.xml", PARSED_OK := 0, errval := 2,
        ret_file := "", success := false, fatalMsg := "" } }

/-! ## Starting the primary tool: all or nothing -/

/-- C1: from a stopped object with no process and no reader, for every flag list
and every outcome of the three sub-steps (first parse of the reader, process
start, poller start), `start( VALGRIND, flags )` returns, and it returns either
true in state VALGRIND with process and reader allocated and the poller polling
(exactly when all three sub-steps went through), or false in state STOPPED with
no process, no reader and the poller stopped. -/
theorem start_valgrind_all_or_nothing (env : Env) (flags : List String) (m : Memcheck)
    (hs : m.runState = .STOPPED) (hv : m.view = true)
    (hr : m.vgreader = none) (hp : m.vgproc = none)
    (ht : env.run.vk_mkstemp (env.run.logsDir ++ "mc_log") "xml" ≠ "") :
    ∃ ok m', start .VALGRIND env flags m = some (ok, m') ∧
      ok = (env.run.parseOk && env.run.procStartOk && env.run.pollerStartOk) ∧
      ((ok = true ∧ m'.runState = .VALGRIND ∧ m'.vgproc.isSome = true ∧
          m'.vgreader.isSome = true ∧ m'.logpollerActive = true) ∨
       (ok = false ∧ m'.runState = .STOPPED ∧ m'.vgproc = none ∧
          m'.vgreader = none ∧ m'.logpollerActive = false)) := by
  cases hpo : env.run.parseOk <;> cases hps : env.run.procStartOk <;>
    cases hpl : env.run.pollerStartOk <;>
    simp [start, isRunning, runValgrind, startProcess, failed_startup, setRunState,
      statusMsg, emit, hs, hv, hr, hp, ht, hpo, hps, hpl]

/-- C1, at a concrete input: the process fails to start. -/
theorem start_valgrind_all_or_nothing_witness :
    ∃ ok m', start .VALGRIND (sampleEnv true false true) ["--flag=1"] Memcheck.init
        = some (ok, m') ∧
      ok = ((sampleEnv true false true).run.parseOk &&
        (sampleEnv true false true).run.procStartOk &&
        (sampleEnv true false true).run.pollerStartOk) ∧
      ((ok = true ∧ m'.runState = .VALGRIND ∧ m'.vgproc.isSome = true ∧
          m'.vgreader.isSome = true ∧ m'.logpollerActive = true) ∨
       (ok = false ∧ m'.runState = .STOPPED ∧ m'.vgproc = none ∧
          m'.vgreader = none ∧ m'.logpollerActive = false)) :=
  start_valgrind_all_or_nothing (sampleEnv true false true) ["--flag=1"] Memcheck.init
    rfl rfl rfl rfl (by decide)

/-- What a `start( VALGRIND, flags )` that returns true has done. -/
theorem start_valgrind_true (env : Env) (flags : List String) (m m1 : Memcheck)
    (hs : m.runState = .STOPPED) (hv : m.view = true)
    (hr : m.vgreader = none) (hp : m.vgproc = none)
    (h : start .VALGRIND env flags m = some (true, m1)) :
    m1 =
      { runState := .VALGRIND, fileSaved := false,
        saveFname := env.run.vk_mkstemp (env.run.logsDir ++ "mc_log") "xml",
        vgproc := some ⟨gres "--log-file-exactly" ("--log-file-exactly=" ++
          env.run.vk_mkstemp (env.run.logsDir ++ "mc_log") "xml") flags, some 0⟩,
        vgreader := some ⟨env.run.handler⟩, logpollerActive := true, view := true,
        trace := m.trace ++
          [.setRunState .VALGRIND, .message ("Memcheck" ++ ": " ++ "Running ... "),
           .readerParse (env.run.vk_mkstemp (env.run.logsDir ++ "mc_log") "xml") true,
           .procStart (gres "--log-file-exactly" ("--log-file-exactly=" ++
             env.run.vk_mkstemp (env.run.logsDir ++ "mc_log") "xml") flags),
           .pollerStart] } := by
  obtain ⟨rs, fs, sf, vp, vr, la, vw, tr⟩ := m
  simp only at hs hv hr hp
  subst hs hv hr hp
  by_cases ht : env.run.vk_mkstemp (env.run.logsDir ++ "mc_log") "xml" = ""
  · simp [start, isRunning, runValgrind, ht] at h
  · cases hpo : env.run.parseOk <;> cases hps : env.run.procStartOk <;>
      cases hpl : env.run.pollerStartOk <;>
      simp [start, isRunning, runValgrind, startProcess, failed_startup, setRunState,
        statusMsg, emit, ht, hpo, hps, hpl] at h
    exact h.symm

/-! ## The end of the process -/

theorem readVgLog_eq (cont : ParseContinue) (procRunning : Bool) (m : Memcheck)
    (p : VKProcess) (rd : VgLogReader)
    (hv : m.view = true) (hp : m.vgproc = some p) (hr : m.vgreader = some rd) :
    readVgLog cont procRunning m = some
      { m with
        vgreader := some ⟨(cont rd.handler).2⟩
        trace := m.trace ++ .parseContinue ::
          (if (cont rd.handler).1 = false ∧ procRunning = true then [.procStop] else []) } := by
  cases hc : (cont rd.handler).1 <;> cases procRunning <;>
    simp [readVgLog, hv, hp, hr, emit, hc]

theorem reportParse_eq (h : VgLogHandler) (m : Memcheck) :
    reportParse h m =
      (decide (¬ (h.fatalMsg = "" ∧ h.finished = true)),
        { m with trace := m.trace ++ parseReports m.runState h }) := by
  obtain ⟨fin, fatal⟩ := h
  obtain ⟨rs, fs, sf, vp, vr, la, vw, tr⟩ := m
  by_cases hf : fatal = "" <;> cases fin <;> by_cases hs : rs = .VALGRIND <;>
    simp [reportParse, parseReports, header, statusMsg, emit, hf, hs]

theorem reportExit_eq (exitCode : Int) (m : Memcheck) :
    reportExit exitCode m =
      { m with trace := m.trace ++ exitEvents m.runState exitCode } := by
  by_cases he : exitCode = 0 <;> simp [reportExit, exitEvents, emit, he]

/-- What `processDone` does, in one equation: it returns, in state STOPPED with
the process and the reader deleted and the poller stopped, having appended
`doneEvents` to the trace; the saved flag and the file name are untouched. -/
theorem processDone_eq (cont : ParseContinue) (procRunning : Bool) (exitCode : Int)
    (m : Memcheck) (p : VKProcess) (rd : VgLogReader)
    (hv : m.view = true) (hp : m.vgproc = some p) (hr : m.vgreader = some rd) :
    processDone cont procRunning exitCode m = some
      { runState := .STOPPED, fileSaved := m.fileSaved, saveFname := m.saveFname,
        vgproc := none, vgreader := none, logpollerActive := false, view := m.view,
        trace := m.trace ++
          doneEvents cont procRunning exitCode m.runState rd.handler } := by
  obtain ⟨rs, fs, sf, vp, vr, la, vw, tr⟩ := m
  obtain ⟨h⟩ := rd
  simp only at hv hp hr
  subst hv hp hr
  by_cases hd : h.finished = false ∧ h.fatalMsg = ""
  · have hrd := readVgLog_eq cont procRunning
      (emit .pollerStop ⟨rs, fs, sf, some p, some ⟨h⟩, false, true, tr⟩) p ⟨h⟩ rfl rfl rfl
    simp only [processDone, hd, and_self, if_true, hrd, reportParse_eq, reportExit_eq]
    by_cases hk : (cont h).2.fatalMsg = "" ∧ (cont h).2.finished = true <;>
      by_cases hs : rs = .VALGRIND <;>
      simp [doneEvents, drainEvents, finishedEvents, drained, emit, setRunState,
        statusMsg, header, hd, hk, hs]
  · simp only [processDone, hd, if_false, reportParse_eq, reportExit_eq]
    by_cases hk : h.fatalMsg = "" ∧ h.finished = true <;>
      by_cases hs : rs = .VALGRIND <;>
      simp [doneEvents, drainEvents, finishedEvents, drained, emit, setRunState,
        statusMsg, header, hd, hk, hs]

theorem messages_append (s t : List Event) :
    messages (s ++ t) = messages s ++ messages t := by
  simp [messages]

theorem runStateWrites_append (s t : List Event) :
    runStateWrites (s ++ t) = runStateWrites s ++ runStateWrites t := by
  simp [runStateWrites]

theorem errorReports_append (s t : List Event) :
    errorReports (s ++ t) = errorReports s ++ errorReports t := by
  simp [errorReports]

/-- The status messages of one `processDone`: exactly one, the text of the
classification of the handler after the last read. -/
theorem messages_doneEvents (cont : ParseContinue) (procRunning : Bool) (exitCode : Int)
    (rs : RunState) (h : VgLogHandler) :
    messages (doneEvents cont procRunning exitCode rs h) =
      [header rs ++ ": " ++ outcomeText (classify (drained cont h))] := by
  generalize hg : drained cont h = g
  obtain ⟨fin, fatal⟩ := g
  have hdr : messages (drainEvents cont procRunning h) = [] := by
    unfold drainEvents
    split_ifs <;> simp [messages]
  have hex : messages (exitEvents rs exitCode) = [] := by
    unfold exitEvents exitReport
    split_ifs <;> simp [messages]
  have hpf : messages (parseReports rs ⟨fin, fatal⟩) ++
      messages (finishedEvents rs ⟨fin, fatal⟩) =
      [header rs ++ ": " ++ outcomeText (classify ⟨fin, fatal⟩)] := by
    by_cases hf : fatal = "" <;> cases fin <;> by_cases hs : rs = .VALGRIND <;>
      simp [parseReports, finishedEvents, classify, outcomeText, messages, hf, hs]
  have hcons : ∀ t, messages (.pollerStop :: t) = messages t := by
    intro t
    simp [messages]
  have hlast : messages [Event.setRunState .STOPPED] = [] := by simp [messages]
  unfold doneEvents
  rw [hg]
  simp only [messages_append, hcons, hdr, hex, hlast, List.append_nil, List.nil_append,
    List.append_assoc]
  exact hpf

/-- C2: with a process and a reader, in state VALGRIND (header "Memcheck") as in
state TOOL2 (header "Merge Logs"), `processDone` returns and emits exactly one
status message, the one of the classification of the handler as it is after the
last read: "Error parsing output log" when the fatal message is not empty
(whatever `finished()` says), else "Error - incomplete output log" when not
finished, else "Finished".  In particular an unfinished log without a fatal
message gives the incomplete-output message, not "Finished". -/
theorem processDone_classifies (cont : ParseContinue) (procRunning : Bool)
    (exitCode : Int) (m : Memcheck) (p : VKProcess) (rd : VgLogReader)
    (hv : m.view = true) (hp : m.vgproc = some p) (hr : m.vgreader = some rd) :
    ∃ m', processDone cont procRunning exitCode m = some m' ∧
      messages m'.trace = messages m.trace ++
        [header m.runState ++ ": " ++ outcomeText (classify (drained cont rd.handler))] ∧
      ((drained cont rd.handler).fatalMsg ≠ "" →
        classify (drained cont rd.handler) = .FatalParseError) ∧
      ((drained cont rd.handler).fatalMsg = "" →
        (drained cont rd.handler).finished = false →
        messages m'.trace = messages m.trace ++
          [header m.runState ++ ": " ++ "Error - incomplete output log"]) := by
  refine ⟨_, processDone_eq cont procRunning exitCode m p rd hv hp hr, ?_, ?_, ?_⟩
  · simp only [messages_append, messages_doneEvents]
  · intro hf
    simp [classify, hf]
  · intro hf hfin
    simp only [messages_append, messages_doneEvents]
    simp [classify, outcomeText, hf, hfin]

/-- C2, at a concrete input: the process has exited, the log is unfinished and
stays so at the last read. -/
theorem processDone_classifies_witness :
    ∃ m', processDone (fun h => (true, h)) false 0 (sampleRun .VALGRIND ⟨false, ""⟩)
        = some m' ∧
      messages m'.trace = ["Memcheck: Error - incomplete output log"] := by
  obtain ⟨m', h1, _, _, h4⟩ :=
    processDone_classifies (fun h => (true, h)) false 0 (sampleRun .VALGRIND ⟨false, ""⟩)
      ⟨["--flag=1"], some 0⟩ ⟨⟨false, ""⟩⟩ rfl rfl rfl
  exact ⟨m', h1, h4 (by decide) (by decide)⟩

/-- C3: a `start( VALGRIND, flags )` that went through, the log still empty when
the reader first parsed it (handler not finished, no fatal message), no
`readVgLog` in between, then the process exits with 0 and the last read finds a
complete log (the call succeeds, the handler is finished, no fatal message):
`processDone` returns; it has stopped the poller, called `parseContinue` once,
emitted the one status message "Memcheck: Finished" and no error report, and
set the state to STOPPED.  The states are STOPPED, VALGRIND, STOPPED, the
process and the reader are gone, and the saved flag is false. -/
theorem clean_run_finishes (env : Env) (flags : List String) (m m1 : Memcheck)
    (cont : ParseContinue) (procRunning : Bool)
    (hs : m.runState = .STOPPED) (hv : m.view = true)
    (hr : m.vgreader = none) (hp : m.vgproc = none)
    (hstart : start .VALGRIND env flags m = some (true, m1))
    (hfin : env.run.handler.finished = false) (hfat : env.run.handler.fatalMsg = "")
    (hc1 : (cont env.run.handler).1 = true)
    (hc2 : (cont env.run.handler).2.finished = true)
    (hc3 : (cont env.run.handler).2.fatalMsg = "") :
    ∃ m2, processDone cont procRunning 0 m1 = some m2 ∧
      m2.trace = m1.trace ++
        [.pollerStop, .parseContinue, .message "Memcheck: Finished",
         .setRunState .STOPPED] ∧
      messages m2.trace = messages m1.trace ++ ["Memcheck: Finished"] ∧
      errorReports m2.trace = errorReports m1.trace ∧
      m1.runState = .VALGRIND ∧ m2.runState = .STOPPED ∧
      runStateWrites m2.trace = runStateWrites m.trace ++ [.VALGRIND, .STOPPED] ∧
      m2.vgproc = none ∧ m2.vgreader = none ∧ m2.logpollerActive = false ∧
      m2.fileSaved = false := by
  have h1 := start_valgrind_true env flags m m1 hs hv hr hp hstart
  subst h1
  refine ⟨_, processDone_eq cont procRunning 0 _ _ _ rfl rfl rfl, ?_⟩
  have hev : doneEvents cont procRunning 0 .VALGRIND env.run.handler =
      [.pollerStop, .parseContinue, .message "Memcheck: Finished",
       .setRunState .STOPPED] := by
    simp [doneEvents, drainEvents, parseReports, exitEvents, finishedEvents, drained,
      header, hfin, hfat, hc1, hc2, hc3]
  simp only [hev]
  simp [messages, errorReports, runStateWrites]

/-- C3, at a concrete input: the run of `sampleStarted`, the last read finding
a complete log. -/
theorem clean_run_finishes_witness :
    start .VALGRIND (sampleEnv true true true) ["--flag=1"] Memcheck.init
        = some (true, sampleStarted ["--flag=1"]) ∧
    ∃ m2, processDone (fun _ => (true, ⟨true, ""⟩)) false 0 (sampleStarted ["--flag=1"])
        = some m2 ∧
      messages m2.trace = ["Memcheck: Running ... ", "Memcheck: Finished"] ∧
      runStateWrites m2.trace = [.STOPPED, .VALGRIND, .STOPPED] ∧
      m2.fileSaved = false := by
  refine ⟨by decide, ?_⟩
  obtain ⟨m2, h1, _, h3, _, _, _, h7, _, _, _, h11⟩ :=
    clean_run_finishes (sampleEnv true true true) ["--flag=1"] Memcheck.init
      (sampleStarted ["--flag=1"]) (fun _ => (true, ⟨true, ""⟩)) false
      rfl rfl rfl rfl (by decide) rfl rfl rfl rfl rfl
  exact ⟨m2, h1, h3, h7, h11⟩

/-- The exit report is none of the events of the last read. -/
theorem exitReport_not_mem_drainEvents (cont : ParseContinue) (procRunning : Bool)
    (rs : RunState) (h : VgLogHandler) :
    exitReport rs true ∉ drainEvents cont procRunning h := by
  unfold drainEvents exitReport
  split_ifs <;> simp

/-- The exit report is none of the parse reports. -/
theorem exitReport_not_mem_parseReports (rs : RunState) (h : VgLogHandler) :
    exitReport rs true ∉ parseReports rs h := by
  unfold parseReports exitReport
  split_ifs <;> simp

/-- The exit report is not the "Finished" message. -/
theorem exitReport_not_mem_finishedEvents (rs : RunState) (h : VgLogHandler) :
    exitReport rs true ∉ finishedEvents rs h := by
  unfold finishedEvents exitReport
  split_ifs <;> simp

/-- The exit report is an error report. -/
theorem errorReports_exitReport (rs : RunState) (t : List Event) :
    errorReports (exitReport rs true :: t) = exitReport rs true :: errorReports t := by
  unfold exitReport
  split_ifs <;> simp [errorReports]

/-- Filtering out an event that does not occur changes nothing. -/
theorem filter_ne_of_not_mem (e : Event) (l : List Event) (h : e ∉ l) :
    l.filter (fun x => !decide (x = e)) = l := by
  rw [List.filter_eq_self]
  intro a ha
  have : a ≠ e := fun hae => h (hae ▸ ha)
  simpa using this

/-- The last read raises no error report. -/
theorem errorReports_drainEvents (cont : ParseContinue) (procRunning : Bool)
    (h : VgLogHandler) : errorReports (drainEvents cont procRunning h) = [] := by
  unfold drainEvents
  split_ifs <;> simp [errorReports]

/-- The "Finished" message is no error report. -/
theorem errorReports_finishedEvents (rs : RunState) (h : VgLogHandler) :
    errorReports (finishedEvents rs h) = [] := by
  unfold finishedEvents
  split_ifs <;> simp [errorReports]

/-- The parse reports hold one error report unless the log is finished without
fatal message, and none then. -/
theorem errorReports_parseReports_length (rs : RunState) (h : VgLogHandler) :
    (errorReports (parseReports rs h)).length =
      if classify h = .ParseOk then 0 else 1 := by
  obtain ⟨fin, fatal⟩ := h
  by_cases hf : fatal = "" <;> cases fin <;> by_cases hs : rs = .VALGRIND <;>
    simp [parseReports, classify, errorReports, hf, hs]

/-- C4: with a process and a reader, for every exit code and every handler,
`processDone` raises the exit report if and only if the exit code is not 0, and
everything else it does is what it does for exit code 0: the same events in the
same order once the exit report is left out, the same single status message
(the one of the parse classification, "Finished" for a finished log without
fatal message also when the exit code is not 0), and the same parse error
reports, followed by the exit report when the exit code is not 0. -/
theorem exit_code_is_independent (cont : ParseContinue) (procRunning : Bool)
    (exitCode : Int) (m : Memcheck) (p : VKProcess) (rd : VgLogReader)
    (hv : m.view = true) (hp : m.vgproc = some p) (hr : m.vgreader = some rd) :
    ∃ m' m0 new new0,
      processDone cont procRunning exitCode m = some m' ∧
      processDone cont procRunning 0 m = some m0 ∧
      m'.trace = m.trace ++ new ∧ m0.trace = m.trace ++ new0 ∧
      (exitReport m.runState true ∈ new ↔ exitCode ≠ 0) ∧
      new.filter (fun e => decide (e ≠ exitReport m.runState true)) = new0 ∧
      messages new = messages new0 ∧
      messages new =
        [header m.runState ++ ": " ++ outcomeText (classify (drained cont rd.handler))] ∧
      (classify (drained cont rd.handler) = .ParseOk →
        messages new = [header m.runState ++ ": " ++ "Finished"]) ∧
      errorReports new = errorReports new0 ++
        (if exitCode ≠ 0 then [exitReport m.runState true] else []) ∧
      (classify (drained cont rd.handler) ≠ .ParseOk →
        (errorReports new0).length = 1) := by
  refine ⟨_, _, _, _, processDone_eq cont procRunning exitCode m p rd hv hp hr,
    processDone_eq cont procRunning 0 m p rd hv hp hr, rfl, rfl, ?_, ?_, ?_, ?_, ?_, ?_, ?_⟩
  · have h1 := exitReport_not_mem_drainEvents cont procRunning m.runState rd.handler
    have h2 := exitReport_not_mem_parseReports m.runState (drained cont rd.handler)
    have h3 := exitReport_not_mem_finishedEvents m.runState (drained cont rd.handler)
    have h4 : exitReport m.runState true ≠ .pollerStop := by
      unfold exitReport; split_ifs <;> simp
    have h5 : exitReport m.runState true ≠ .setRunState .STOPPED := by
      unfold exitReport; split_ifs <;> simp
    by_cases he : exitCode = 0 <;>
      simp [doneEvents, exitEvents, h1, h2, h3, h4, h5, he]
  · have h1 := filter_ne_of_not_mem _ _
      (exitReport_not_mem_drainEvents cont procRunning m.runState rd.handler)
    have h2 := filter_ne_of_not_mem _ _
      (exitReport_not_mem_parseReports m.runState (drained cont rd.handler))
    have h3 := filter_ne_of_not_mem _ _
      (exitReport_not_mem_finishedEvents m.runState (drained cont rd.handler))
    have h4 : exitReport m.runState true ≠ .pollerStop := by
      unfold exitReport; split_ifs <;> simp
    have h5 : exitReport m.runState true ≠ .setRunState .STOPPED := by
      unfold exitReport; split_ifs <;> simp
    by_cases he : exitCode = 0 <;>
      simp [doneEvents, exitEvents, List.filter_cons, h1, h2, h3, h4.symm, h5.symm, he]
  · simp only [messages_doneEvents]
  · simp only [messages_doneEvents]
  · intro hc
    simp only [messages_doneEvents, hc, outcomeText]
  · have h6 : errorReports [Event.setRunState .STOPPED] = [] := by simp [errorReports]
    have h7 : ∀ t, errorReports (Event.pollerStop :: t) = errorReports t := by
      intro t; simp [errorReports]
    by_cases he : exitCode = 0 <;>
      simp [doneEvents, exitEvents, errorReports_append, errorReports_drainEvents,
        errorReports_finishedEvents, errorReports_exitReport, h6, h7, he]
  · intro hc
    have h6 : errorReports [Event.setRunState .STOPPED] = [] := by simp [errorReports]
    have h7 : ∀ t, errorReports (Event.pollerStop :: t) = errorReports t := by
      intro t; simp [errorReports]
    simp [doneEvents, exitEvents, errorReports_append, errorReports_drainEvents,
      errorReports_finishedEvents, errorReports_parseReports_length, h6, h7, hc]

/-- C4, at a concrete input: a finished log and exit code 3. -/
theorem exit_code_is_independent_witness :
    ∃ m' new,
      processDone (fun _ => (true, ⟨true, ""⟩)) false 3 (sampleRun .VALGRIND ⟨false, ""⟩)
        = some m' ∧
      m'.trace = new ∧
      (exitReport .VALGRIND true ∈ new ↔ (3 : Int) ≠ 0) ∧
      messages new = ["Memcheck: Finished"] := by
  obtain ⟨m', _, new, _, h1, _, h3, _, h5, _, _, _, h9, _, _⟩ :=
    exit_code_is_independent (fun _ => (true, ⟨true, ""⟩)) false 3
      (sampleRun .VALGRIND ⟨false, ""⟩) ⟨["--flag=1"], some 0⟩ ⟨⟨false, ""⟩⟩ rfl rfl rfl
  exact ⟨m', new, h1, h3, h5, h9 (by decide)⟩

/-! ## The output flag of the primary tool -/

/-- A string without an occurrence of `before` is left alone by the replace
loop. -/
theorem replaceFrom_of_not_contains (before after s : List Char)
    (h : containsText before s = false) : replaceFrom before after 0 s = s := by
  induction s with
  | nil => simp [replaceFrom]
  | cons c cs ih =>
    simp only [containsText, Bool.or_eq_false_iff] at h
    simp [replaceFrom, h.1, ih h.2]

/-- The bare flag `--log-file-exactly` is replaced by the whole of `after`. -/
theorem qreplace_bare_flag (after : String) :
    qreplace "--log-file-exactly" after "--log-file-exactly" = after := by
  simp [qreplace, replaceFrom, startsWith]

/-- A flag without the text `--log-file-exactly` is left alone. -/
theorem qreplace_other_flag (after f : String)
    (h : containsText "--log-file-exactly".data f.data = false) :
    qreplace "--log-file-exactly" after f = f := by
  have hne : "--log-file-exactly".data ≠ [] := by decide
  simp [qreplace, hne, replaceFrom_of_not_contains _ _ _ h]

/-- C5, as stated, fails: with a flag list that has no output-path flag the
started process is handed the list as it is (nothing is injected), and a flag
that already carries a value keeps that value behind the inserted path (it is
not overwritten); in both cases no element of the list handed over is
`--log-file-exactly=` followed by the temp path. -/
theorem output_flag_neither_injected_nor_overwritten :
    (∃ m1, start .VALGRIND (sampleEnv true true true) ["--flag=1"] Memcheck.init
        = some (true, m1) ∧
      m1.saveFname = "/logs/mc_log_0001.xml" ∧
      m1.vgproc = some ⟨["--flag=1"], some 0⟩ ∧
      "--log-file-exactly=/logs/mc_log_0001.xml" ∉ ["--flag=1"]) ∧
    (∃ m1, start .VALGRIND (sampleEnv true true true) ["--log-file-exactly=/old.xml"]
        Memcheck.init = some (true, m1) ∧
      m1.saveFname = "/logs/mc_log_0001.xml" ∧
      m1.vgproc = some ⟨["--log-file-exactly=/logs/mc_log_0001.xml=/old.xml"], some 0⟩ ∧
      "--log-file-exactly=/logs/mc_log_0001.xml" ∉
        ["--log-file-exactly=/logs/mc_log_0001.xml=/old.xml"]) :=
  ⟨⟨_, rfl, by decide, by decide, by decide⟩, ⟨_, rfl, by decide, by decide, by decide⟩⟩

/-- C5, amended: when `start( VALGRIND, flags )` goes through, the list handed
to the process has the length of the caller's list (no flag is added); an
element that is exactly `--log-file-exactly` has become exactly
`--log-file-exactly=` followed by the temp path; an element without the text
`--log-file-exactly` is handed over as it is. -/
theorem output_flag_filled_in (env : Env) (flags : List String) (m m1 : Memcheck)
    (hs : m.runState = .STOPPED) (hv : m.view = true)
    (hr : m.vgreader = none) (hp : m.vgproc = none)
    (hstart : start .VALGRIND env flags m = some (true, m1)) :
    ∃ handed : List String, m1.vgproc = some ⟨handed, some 0⟩ ∧
      Event.procStart handed ∈ m1.trace ∧
      m1.saveFname = env.run.vk_mkstemp (env.run.logsDir ++ "mc_log") "xml" ∧
      handed.length = flags.length ∧
      ∀ (i : Nat) (f : String), flags[i]? = some f →
        (f = "--log-file-exactly" →
          handed[i]? = some ("--log-file-exactly=" ++ m1.saveFname)) ∧
        (containsText "--log-file-exactly".data f.data = false →
          handed[i]? = some f) := by
  have h1 := start_valgrind_true env flags m m1 hs hv hr hp hstart
  subst h1
  refine ⟨_, rfl, by simp, rfl, by simp [gres], ?_⟩
  intro i f hf
  constructor
  · intro hb
    subst hb
    simp [gres, List.getElem?_map, hf, qreplace_bare_flag]
  · intro hc
    simp [gres, List.getElem?_map, hf, qreplace_other_flag _ _ hc]

/-- C5, amended, at a concrete input: the caller passes the bare flag. -/
theorem output_flag_filled_in_witness :
    ∃ handed : List String,
      handed.length = ["--flag=1", "--log-file-exactly"].length ∧
      handed[0]? = some "--flag=1" ∧
      handed[1]? = some "--log-file-exactly=/logs/mc_log_0001.xml" := by
  obtain ⟨handed, _, _, _, hl, h⟩ :=
    output_flag_filled_in (sampleEnv true true true) ["--flag=1", "--log-file-exactly"]
      Memcheck.init
      (sampleStarted ["--flag=1", "--log-file-exactly=/logs/mc_log_0001.xml"])
      rfl rfl rfl rfl (by decide)
  exact ⟨handed, hl, (h 0 "--flag=1" rfl).2 (by decide),
    (h 1 "--log-file-exactly" rfl).1 rfl⟩

/-! ## What each operation leaves behind -/

/-- What `startProcess` leaves behind when it returns: state, saved flag, file
name and run-state writes as they were, and either everything up (true) or
nothing up (false). -/
theorem startProcess_some (env : StartEnv) (flags : List String) (m m' : Memcheck)
    (ok : Bool) (h : startProcess env flags m = some (ok, m')) :
    m'.runState = m.runState ∧ m'.fileSaved = m.fileSaved ∧
    m'.saveFname = m.saveFname ∧ m'.view = m.view ∧
    runStateWrites m'.trace = runStateWrites m.trace ∧
    ((ok = true ∧ m'.vgproc.isSome = true ∧ m'.vgreader.isSome = true ∧
        m'.logpollerActive = true) ∨
     (ok = false ∧ m'.vgproc = none ∧ m'.vgreader = none ∧
        m'.logpollerActive = false)) := by
  obtain ⟨rs, fs, sf, vp, vr, la, vw, tr⟩ := m
  cases vw <;> cases vr <;> cases vp <;>
    cases hpo : env.parseOk <;> cases hps : env.procStartOk <;>
    cases hpl : env.pollerStartOk <;>
    simp [startProcess, failed_startup, emit, hpo, hps, hpl] at h <;>
    obtain ⟨h1, h2⟩ := h <;> subst h1 h2 <;> simp [runStateWrites]

/-- What a `start` of a process-backed run (VALGRIND or TOOL2) leaves behind
when it returns: it was called in state STOPPED, and either it returns true in
the running state, unsaved, with everything up, having written the running
state; or it returns false in state STOPPED, saved, with nothing up, having
written the running state and then STOPPED. -/
theorem start_backed_some (rs : RunState) (env : Env) (flags : List String)
    (m m' : Memcheck) (ok : Bool) (hrs : rs = .VALGRIND ∨ rs = .TOOL2)
    (h : start rs env flags m = some (ok, m')) :
    m.runState = .STOPPED ∧ m'.view = m.view ∧
    ((ok = true ∧ m'.runState = rs ∧ m'.fileSaved = false ∧
        m'.vgproc.isSome = true ∧ m'.vgreader.isSome = true ∧
        m'.logpollerActive = true ∧
        runStateWrites m'.trace = runStateWrites m.trace ++ [rs]) ∨
     (ok = false ∧ m'.runState = .STOPPED ∧ m'.fileSaved = true ∧
        m'.vgproc = none ∧ m'.vgreader = none ∧ m'.logpollerActive = false ∧
        runStateWrites m'.trace = runStateWrites m.trace ++ [rs, .STOPPED])) := by
  have hst : m.runState = .STOPPED := by
    by_contra hne
    rcases hrs with hrs | hrs <;> subst hrs <;> simp [start, isRunning, hne] at h
  refine ⟨hst, ?_⟩
  rcases hrs with hrs | hrs <;> subst hrs
  · simp only [start, isRunning, hst, runValgrind] at h
    by_cases ht : env.run.vk_mkstemp (env.run.logsDir ++ "mc_log") "xml" = ""
    · simp [ht] at h
    · simp only [reduceCtorEq, if_false, bne_self_eq_false, Bool.false_eq_true, ht] at h
      split at h
      · simp at h
      · rename_i ok1 m1 hsp
        obtain ⟨f1, f2, f3, f4, f5, f6⟩ := startProcess_some _ _ _ _ _ hsp
        cases ok1 <;> simp at h <;> obtain ⟨h1, h2⟩ := h <;> subst h1 h2 <;>
          simp_all [setRunState, statusMsg, emit, runStateWrites]
  · simp only [start, isRunning, hst, mergeLogFiles] at h
    by_cases ht : env.run.vk_mkstemp (env.run.logsDir ++ "mc_merged") "xml" = ""
    · simp [ht] at h
    · simp only [reduceCtorEq, if_false, bne_self_eq_false, Bool.false_eq_true, ht] at h
      split at h
      · simp at h
      · rename_i ok1 m1 hsp
        obtain ⟨f1, f2, f3, f4, f5, f6⟩ := startProcess_some _ _ _ _ _ hsp
        cases ok1 <;> simp at h <;> obtain ⟨h1, h2⟩ := h <;> subst h1 h2 <;>
          simp_all [setRunState, statusMsg, emit, runStateWrites]

/-- What the first half of `parseLogFile` leaves behind when it returns: with
the flag false (file check failed) only messages were added; with the flag true
the state is TOOL1 and the saved flag is true. -/
theorem parseLogFileCheck_some (env : ParseEnv) (m m' : Memcheck) (ok : Bool)
    (h : parseLogFileCheck env m = some (ok, m')) :
    m.view = true ∧ m'.view = m.view ∧ m'.vgproc = m.vgproc ∧
    m'.vgreader = m.vgreader ∧ m'.logpollerActive = m.logpollerActive ∧
    m'.saveFname = m.saveFname ∧
    ((ok = false ∧ env.errval ≠ env.PARSED_OK ∧ m'.runState = m.runState ∧
        m'.fileSaved = m.fileSaved ∧
        runStateWrites m'.trace = runStateWrites m.trace) ∨
     (ok = true ∧ env.errval = env.PARSED_OK ∧ m'.runState = .TOOL1 ∧
        m'.fileSaved = true ∧
        runStateWrites m'.trace = runStateWrites m.trace ++ [.TOOL1])) := by
  obtain ⟨rs, fs, sf, vp, vr, la, vw, tr⟩ := m
  cases vw <;> by_cases he : env.errval = env.PARSED_OK <;>
    simp [parseLogFileCheck, setRunState, statusMsg, emit, he] at h <;>
    obtain ⟨h1, h2⟩ := h <;> subst h1 h2 <;> simp [runStateWrites, he]

/-- What `start( TOOL1 )` leaves behind when it returns: it was called in state
STOPPED and ends in state STOPPED, process, reader and poller untouched; either
the file check failed (false, nothing written), or the state was written TOOL1
and then STOPPED and the saved flag is true. -/
theorem start_tool1_some (env : Env) (flags : List String) (m m' : Memcheck)
    (ok : Bool) (h : start .TOOL1 env flags m = some (ok, m')) :
    m.runState = .STOPPED ∧ m'.runState = .STOPPED ∧ m'.view = m.view ∧
    m'.vgproc = m.vgproc ∧ m'.vgreader = m.vgreader ∧
    m'.logpollerActive = m.logpollerActive ∧
    ((ok = false ∧ env.log.errval ≠ env.log.PARSED_OK ∧
        m'.fileSaved = m.fileSaved ∧ m'.saveFname = m.saveFname ∧
        runStateWrites m'.trace = runStateWrites m.trace) ∨
     (ok = env.log.success ∧ env.log.errval = env.log.PARSED_OK ∧
        m'.fileSaved = true ∧
        runStateWrites m'.trace = runStateWrites m.trace ++ [.TOOL1, .STOPPED])) := by
  have hst : m.runState = .STOPPED := by
    by_contra hne
    simp [start, isRunning, hne] at h
  refine ⟨hst, ?_⟩
  simp only [start, isRunning, hst, parseLogFile] at h
  simp only [reduceCtorEq, if_false, bne_self_eq_false, Bool.false_eq_true] at h
  split at h
  · simp at h
  · rename_i m1 hck
    obtain ⟨f1, f2, f3, f4, f5, f6, f7⟩ := parseLogFileCheck_some _ _ _ _ hck
    simp only [Option.some.injEq, Prod.mk.injEq] at h
    obtain ⟨rfl, rfl⟩ := h
    simp_all
  · rename_i m1 hck
    obtain ⟨f1, f2, f3, f4, f5, f6, f7⟩ := parseLogFileCheck_some _ _ _ _ hck
    simp only [Option.some.injEq] at h
    have hok : ok = (parseLogFileParse env.log m1).1 := by rw [h]
    have hm : m' = (parseLogFileParse env.log m1).2 := by rw [h]
    subst hok hm
    cases hsu : env.log.success <;>
      simp_all [parseLogFileParse, setRunState, statusMsg, emit, runStateWrites]

/-- What `stop` leaves behind when it returns: it returns true, it was called
in a running state, and the object is as it was but for a stop request to the
process, made in the states VALGRIND and TOOL2 when there is a process and it
is running. -/
theorem stop_some (procRunning : Bool) (m m' : Memcheck) (ok : Bool)
    (h : stop procRunning m = some (ok, m')) :
    ok = true ∧ m.runState ≠ .STOPPED ∧
    m' = { m with trace := m.trace ++
      (if (m.runState = .VALGRIND ∨ m.runState = .TOOL2) ∧ m.vgproc ≠ none ∧
          procRunning = true then [.procStop] else []) } := by
  obtain ⟨rs, fs, sf, vp, vr, la, vw, tr⟩ := m
  cases rs <;> cases vp <;> cases procRunning <;>
    simp [stop, isRunning, emit] at h <;>
    obtain ⟨h1, h2⟩ := h <;> subst h1 h2 <;> simp

/-- What `readVgLog` leaves behind when it returns: there were a process and a
reader, and the object is as it was but for the reader's handler and the calls
made (`parseContinue`, and a stop request when that failed while the process
was running). -/
theorem readVgLog_some (cont : ParseContinue) (procRunning : Bool) (m m' : Memcheck)
    (h : readVgLog cont procRunning m = some m') :
    ∃ p rd, m.vgproc = some p ∧ m.vgreader = some rd ∧ m.view = true ∧
      m' = { m with
        vgreader := some ⟨(cont rd.handler).2⟩
        trace := m.trace ++ .parseContinue ::
          (if (cont rd.handler).1 = false ∧ procRunning = true then [.procStop]
           else []) } := by
  obtain ⟨rs, fs, sf, vp, vr, la, vw, tr⟩ := m
  cases vw
  · simp [readVgLog] at h
  · cases vp with
    | none => cases vr <;> simp [readVgLog] at h
    | some p =>
      cases vr with
      | none => simp [readVgLog] at h
      | some rd =>
        refine ⟨p, rd, rfl, rfl, rfl, ?_⟩
        have h2 := readVgLog_eq cont procRunning
          ⟨rs, fs, sf, some p, some rd, la, true, tr⟩ p rd rfl rfl rfl
        rw [h2] at h
        exact (Option.some.inj h).symm

/-- The run states written by one `processDone`: STOPPED, once. -/
theorem runStateWrites_doneEvents (cont : ParseContinue) (procRunning : Bool)
    (exitCode : Int) (rs : RunState) (h : VgLogHandler) :
    runStateWrites (doneEvents cont procRunning exitCode rs h) = [.STOPPED] := by
  have hdr : runStateWrites (drainEvents cont procRunning h) = [] := by
    unfold drainEvents
    split_ifs <;> simp [runStateWrites]
  have hex : runStateWrites (exitEvents rs exitCode) = [] := by
    unfold exitEvents exitReport
    split_ifs <;> simp [runStateWrites]
  have hpr : runStateWrites (parseReports rs (drained cont h)) = [] := by
    unfold parseReports
    split_ifs <;> simp [runStateWrites]
  have hfi : runStateWrites (finishedEvents rs (drained cont h)) = [] := by
    unfold finishedEvents
    split_ifs <;> simp [runStateWrites]
  have hcons : ∀ t, runStateWrites (.pollerStop :: t) = runStateWrites t := by
    intro t
    simp [runStateWrites]
  have hlast : runStateWrites [Event.setRunState .STOPPED] = [.STOPPED] := by
    simp [runStateWrites]
  unfold doneEvents
  simp only [runStateWrites_append, hcons, hdr, hex, hpr, hfi, hlast, List.append_nil,
    List.nil_append]

/-- What `processDone` leaves behind when it returns: there were a process and
a reader; now the state is STOPPED, they are gone, the poller is stopped, the
saved flag and the file name are as they were, and STOPPED is the one run state
written. -/
theorem processDone_some (cont : ParseContinue) (procRunning : Bool) (exitCode : Int)
    (m m' : Memcheck) (hv : m.view = true)
    (h : processDone cont procRunning exitCode m = some m') :
    (∃ p rd, m.vgproc = some p ∧ m.vgreader = some rd) ∧
    m'.runState = .STOPPED ∧ m'.vgproc = none ∧ m'.vgreader = none ∧
    m'.logpollerActive = false ∧ m'.fileSaved = m.fileSaved ∧
    m'.saveFname = m.saveFname ∧ m'.view = m.view ∧
    runStateWrites m'.trace = runStateWrites m.trace ++ [.STOPPED] := by
  obtain ⟨rs, fs, sf, vp, vr, la, vw, tr⟩ := m
  cases vp with
  | none => simp [processDone] at h
  | some p =>
    cases vr with
    | none => simp [processDone] at h
    | some rd =>
      have h2 := processDone_eq cont procRunning exitCode
        ⟨rs, fs, sf, some p, some rd, la, vw, tr⟩ p rd hv rfl rfl
      rw [h2] at h
      have h3 := (Option.some.inj h).symm
      subst h3
      refine ⟨⟨p, rd, rfl, rfl⟩, rfl, rfl, rfl, rfl, rfl, rfl, rfl, ?_⟩
      simp only [runStateWrites_append, runStateWrites_doneEvents]

/-- What `saveParsedOutput` leaves behind when it returns: state, process,
reader, poller and run-state writes as they were. -/
theorem saveParsedOutput_some (env : SaveEnv) (fname : String) (m m' : Memcheck)
    (disk disk' : Disk) (ok : Bool)
    (h : saveParsedOutput env fname m disk = some (ok, m', disk')) :
    m'.runState = m.runState ∧ m'.vgproc = m.vgproc ∧ m'.vgreader = m.vgreader ∧
    m'.logpollerActive = m.logpollerActive ∧ m'.view = m.view ∧
    runStateWrites m'.trace = runStateWrites m.trace := by
  obtain ⟨rs, fs, sf, vp, vr, la, vw, tr⟩ := m
  cases vw <;> cases fs <;> by_cases hf : fname = "" <;>
    by_cases hx : env.absFilePath fname ∈ disk <;>
    by_cases ho : env.overwrite = .vkNo <;>
    cases hio : (diskRename env.ioOk sf (env.absFilePath fname) disk).1 <;>
    simp [saveParsedOutput, statusMsg, emit, hf, hx, ho, hio] at h <;>
    obtain ⟨h1, h2, h3⟩ := h <;> subst h1 h2 h3 <;> simp [runStateWrites]

/-! ## The saved flag while a run is active -/

/-- Every state the object can be found in has a view. -/
theorem Reachable.view_eq_true (b : Bool) (m : Memcheck) (h : Reachable b m) :
    m.view = true := by
  induction h with
  | init => rfl
  | start rs env flags m m' ok _ hop ih =>
    cases rs with
    | STOPPED => simp [Valkyrie.start] at hop
    | VALGRIND =>
      exact (start_backed_some _ env flags m m' ok (Or.inl rfl) hop).2.1.trans ih
    | TOOL1 => exact (start_tool1_some env flags m m' ok hop).2.2.1.trans ih
    | TOOL2 =>
      exact (start_backed_some _ env flags m m' ok (Or.inr rfl) hop).2.1.trans ih
  | parsing env m m' _ _ hop ih =>
    exact (parseLogFileCheck_some env.log m m' true hop).2.1.trans ih
  | stop procRunning m m' ok _ hop ih =>
    rw [(stop_some procRunning m m' ok hop).2.2]
    exact ih
  | readVgLog cont procRunning m m' _ hop ih =>
    obtain ⟨p, rd, _, _, _, hm⟩ := readVgLog_some cont procRunning m m' hop
    rw [hm]
    exact ih
  | processDone cont procRunning exitCode m m' _ hop ih =>
    exact (processDone_some cont procRunning exitCode m m' ih hop).2.2.2.2.2.2.2.1.trans ih
  | save env fname m m' disk disk' ok _ _ hop ih =>
    exact (saveParsedOutput_some env fname m m' disk disk' ok hop).2.2.2.2.1.trans ih

/-- C6, as stated, fails: while `start( TOOL1 )` parses an existing log the
state is TOOL1 and the saved flag is true (this state is reached whether or not
the log may be saved during a run); and when the log of a running primary tool
is saved, the state is still VALGRIND and the saved flag is true. -/
theorem saved_flag_true_while_running :
    (∃ m, Reachable false m ∧ Reachable true m ∧
      m.runState = .TOOL1 ∧ m.fileSaved = true) ∧
    (∃ m, Reachable true m ∧ m.runState = .VALGRIND ∧ m.fileSaved = true) := by
  constructor
  · refine ⟨sampleParsing, ?_, ?_, rfl, rfl⟩
    · exact Reachable.parsing (sampleEnv true true true) Memcheck.init _ Reachable.init
        rfl (by decide)
    · exact Reachable.parsing (sampleEnv true true true) Memcheck.init _ Reachable.init
        rfl (by decide)
  · have h1 : Reachable true (sampleStarted ["--flag=1"]) :=
      Reachable.start .VALGRIND (sampleEnv true true true) ["--flag=1"] Memcheck.init _
        true Reachable.init (by decide)
    refine ⟨sampleSavedRunning ["--flag=1"], ?_, rfl, rfl⟩
    exact Reachable.save (sampleSave true) "/home/run.xml" (sampleStarted ["--flag=1"]) _
      ["/logs/mc_log_0001.xml"] ["/home/run.xml"] true h1 (Or.inl rfl) (by decide)

/-- C6, amended: in every state the object can be found in, the log being saved
in state STOPPED only: when the state is VALGRIND or TOOL2 (a process-backed
run is active) the saved flag is false, and when the state is TOOL1 (an
existing log is being parsed) the saved flag is true. -/
theorem saved_flag_while_running (m : Memcheck) (h : Reachable false m) :
    ((m.runState = .VALGRIND ∨ m.runState = .TOOL2) → m.fileSaved = false) ∧
    (m.runState = .TOOL1 → m.fileSaved = true) := by
  induction h with
  | init => simp [Memcheck.init]
  | start rs env flags m m' ok hm hop ih =>
    cases rs with
    | STOPPED => simp [Valkyrie.start] at hop
    | VALGRIND =>
      obtain ⟨_, _, h3⟩ := start_backed_some _ env flags m m' ok (Or.inl rfl) hop
      rcases h3 with h3 | h3 <;> simp [h3]
    | TOOL1 =>
      obtain ⟨_, h2, _⟩ := start_tool1_some env flags m m' ok hop
      simp [h2]
    | TOOL2 =>
      obtain ⟨_, _, h3⟩ := start_backed_some _ env flags m m' ok (Or.inr rfl) hop
      rcases h3 with h3 | h3 <;> simp [h3]
  | parsing env m m' hm hrun hop ih =>
    obtain ⟨_, _, _, _, _, _, h7⟩ := parseLogFileCheck_some env.log m m' true hop
    rcases h7 with h7 | h7
    · simp at h7
    · simp [h7]
  | stop procRunning m m' ok hm hop ih =>
    rw [(stop_some procRunning m m' ok hop).2.2]
    exact ih
  | readVgLog cont procRunning m m' hm hop ih =>
    obtain ⟨p, rd, _, _, _, hm'⟩ := readVgLog_some cont procRunning m m' hop
    rw [hm']
    exact ih
  | processDone cont procRunning exitCode m m' hm hop ih =>
    have hv := Reachable.view_eq_true false m hm
    obtain ⟨_, h2, _⟩ := processDone_some cont procRunning exitCode m m' hv hop
    simp [h2]
  | save env fname m m' disk disk' ok hm hst hop ih =>
    obtain ⟨h1, _⟩ := saveParsedOutput_some env fname m m' disk disk' ok hop
    have h2 : m.runState = .STOPPED := by simpa using hst
    simp [h1, h2]

/-- C6, amended, at a concrete input: the state after a `start( VALGRIND )` that
went through. -/
theorem saved_flag_while_running_witness :
    Reachable false (sampleStarted ["--flag=1"]) ∧
    (sampleStarted ["--flag=1"]).runState = .VALGRIND ∧
    (sampleStarted ["--flag=1"]).fileSaved = false :=
  have h : Reachable false (sampleStarted ["--flag=1"]) :=
    Reachable.start .VALGRIND (sampleEnv true true true) ["--flag=1"] Memcheck.init _
      true Reachable.init (by decide)
  ⟨h, rfl, (saved_flag_while_running (sampleStarted ["--flag=1"]) h).1 (Or.inl rfl)⟩

/-! ## The pipeline stays consistent -/

/-- From a stopped object with a view and without process and reader, `start`
returns for every kind of run, provided the temp file names are allocated. -/
theorem start_returns (rs : RunState) (env : Env) (flags : List String) (m : Memcheck)
    (hrs : rs ≠ .STOPPED) (hs : m.runState = .STOPPED) (hv : m.view = true)
    (hr : m.vgreader = none) (hp : m.vgproc = none)
    (ht1 : env.run.vk_mkstemp (env.run.logsDir ++ "mc_log") "xml" ≠ "")
    (ht2 : env.run.vk_mkstemp (env.run.logsDir ++ "mc_merged") "xml" ≠ "") :
    ∃ ok m', start rs env flags m = some (ok, m') := by
  cases rs with
  | STOPPED => exact absurd rfl hrs
  | VALGRIND =>
    cases hpo : env.run.parseOk <;> cases hps : env.run.procStartOk <;>
      cases hpl : env.run.pollerStartOk <;>
      simp [start, isRunning, runValgrind, startProcess, failed_startup, setRunState,
        statusMsg, emit, hs, hv, hr, hp, ht1, hpo, hps, hpl]
  | TOOL1 =>
    cases h : start .TOOL1 env flags m with
    | some r => exact ⟨r.1, r.2, rfl⟩
    | none =>
      by_cases he : env.log.errval = env.log.PARSED_OK <;>
        simp [start, isRunning, parseLogFile, parseLogFileCheck, hs, hv, he] at h
  | TOOL2 =>
    cases hpo : env.run.parseOk <;> cases hps : env.run.procStartOk <;>
      cases hpl : env.run.pollerStartOk <;>
      simp [start, isRunning, mergeLogFiles, startProcess, failed_startup, setRunState,
        statusMsg, emit, hs, hv, hr, hp, ht2, hpo, hps, hpl]

/-- C7: the object after construction is consistent, and from a consistent
object each of `start`, `stop`, `readVgLog` and `processDone`, called under its
precondition, returns and leaves a consistent object: the process and the
reader are both there or both not, they are there exactly in the states
VALGRIND and TOOL2, and in state STOPPED they are not there and the poller is
stopped.  After `processDone` the state is STOPPED. -/
theorem pipeline_consistent (m : Memcheck) (hc : Consistent m) (hv : m.view = true) :
    Consistent Memcheck.init ∧
    (∀ (rs : RunState) (env : Env) (flags : List String), rs ≠ .STOPPED →
      m.runState = .STOPPED →
      env.run.vk_mkstemp (env.run.logsDir ++ "mc_log") "xml" ≠ "" →
      env.run.vk_mkstemp (env.run.logsDir ++ "mc_merged") "xml" ≠ "" →
      ∃ ok m', start rs env flags m = some (ok, m') ∧ Consistent m') ∧
    (∀ procRunning : Bool, m.runState ≠ .STOPPED →
      ∃ m', stop procRunning m = some (true, m') ∧ Consistent m') ∧
    (∀ (cont : ParseContinue) (procRunning : Bool),
      (m.runState = .VALGRIND ∨ m.runState = .TOOL2) →
      ∃ m', readVgLog cont procRunning m = some m' ∧ Consistent m') ∧
    (∀ (cont : ParseContinue) (procRunning : Bool) (exitCode : Int),
      (m.runState = .VALGRIND ∨ m.runState = .TOOL2) →
      ∃ m', processDone cont procRunning exitCode m = some m' ∧ Consistent m' ∧
        m'.runState = .STOPPED) := by
  obtain ⟨c1, c2, c3⟩ := hc
  refine ⟨by simp [Consistent, Memcheck.init], ?_, ?_, ?_, ?_⟩
  · intro rs env flags hrs hs ht1 ht2
    obtain ⟨hp, hr, hl⟩ := c3 hs
    obtain ⟨ok, m', hop⟩ := start_returns rs env flags m hrs hs hv hr hp ht1 ht2
    refine ⟨ok, m', hop, ?_⟩
    cases rs with
    | STOPPED => exact absurd rfl hrs
    | VALGRIND =>
      obtain ⟨_, _, h3⟩ := start_backed_some _ env flags m m' ok (Or.inl rfl) hop
      rcases h3 with h3 | h3 <;> simp [Consistent, h3]
    | TOOL1 =>
      obtain ⟨_, h2, _, h4, h5, h6, _⟩ := start_tool1_some env flags m m' ok hop
      simp [Consistent, h2, h4, h5, h6, hp, hr, hl]
    | TOOL2 =>
      obtain ⟨_, _, h3⟩ := start_backed_some _ env flags m m' ok (Or.inr rfl) hop
      rcases h3 with h3 | h3 <;> simp [Consistent, h3]
  · intro procRunning hs
    have hex : ∃ m', stop procRunning m = some (true, m') := by
      obtain ⟨rs, fs, sf, vp, vr, la, vw, tr⟩ := m
      cases rs <;> cases vp <;> cases procRunning <;> simp [stop, isRunning] at hs ⊢
    obtain ⟨m', hop⟩ := hex
    refine ⟨m', hop, ?_⟩
    rw [(stop_some procRunning m m' true hop).2.2]
    exact ⟨c1, c2, c3⟩
  · intro cont procRunning hs
    have hp : m.vgproc.isSome = true := c2.mpr hs
    have hr : m.vgreader.isSome = true := c1 ▸ hp
    obtain ⟨p, hp'⟩ := Option.isSome_iff_exists.mp hp
    obtain ⟨rd, hr'⟩ := Option.isSome_iff_exists.mp hr
    refine ⟨_, readVgLog_eq cont procRunning m p rd hv hp' hr', ?_⟩
    refine ⟨?_, ?_, ?_⟩
    · simpa using hp
    · exact c2
    · intro hst
      rcases hs with hs | hs <;> simp [hs] at hst
  · intro cont procRunning exitCode hs
    have hp : m.vgproc.isSome = true := c2.mpr hs
    have hr : m.vgreader.isSome = true := c1 ▸ hp
    obtain ⟨p, hp'⟩ := Option.isSome_iff_exists.mp hp
    obtain ⟨rd, hr'⟩ := Option.isSome_iff_exists.mp hr
    refine ⟨_, processDone_eq cont procRunning exitCode m p rd hv hp' hr', ?_, rfl⟩
    simp [Consistent]

/-- C7, at a concrete input: the object after construction, and a start of the
primary tool whose process fails to start. -/
theorem pipeline_consistent_witness :
    Consistent Memcheck.init ∧
    ∃ ok m', start .VALGRIND (sampleEnv true false true) ["--flag=1"] Memcheck.init
        = some (ok, m') ∧ Consistent m' :=
  have hc : Consistent Memcheck.init := by simp [Consistent, Memcheck.init]
  ⟨hc, (pipeline_consistent Memcheck.init hc rfl).2.1 .VALGRIND
    (sampleEnv true false true) ["--flag=1"] (by decide) rfl (by decide) (by decide)⟩

/-! ## Who sets the state back to STOPPED -/

/-- C8, as stated, fails: a `start( VALGRIND )` whose process fails to start
sets the state to VALGRIND and then to STOPPED itself, and a `start( TOOL1 )`
sets the state to TOOL1 and then to STOPPED itself; `processDone` is not
called in either. -/
theorem start_sets_stopped_itself :
    (∃ m', start .VALGRIND (sampleEnv true false true) ["--flag=1"] Memcheck.init
        = some (false, m') ∧
      runStateWrites m'.trace =
        runStateWrites Memcheck.init.trace ++ [.VALGRIND, .STOPPED] ∧
      m'.runState = .STOPPED) ∧
    (∃ m', start .TOOL1 (sampleEnv true true true) [] Memcheck.init = some (true, m') ∧
      runStateWrites m'.trace =
        runStateWrites Memcheck.init.trace ++ [.TOOL1, .STOPPED] ∧
      m'.runState = .STOPPED) :=
  ⟨⟨_, rfl, by decide, by decide⟩, ⟨_, rfl, by decide, by decide⟩⟩

/-- C8, amended: `stop` and `readVgLog` never write the run state; a `start` of
a process-backed run (VALGRIND, TOOL2) that returns true writes the running
state only, so that the return to STOPPED is left to `processDone`, which
writes STOPPED once; a `start` of a process-backed run that returns false has
written the running state and then STOPPED itself; `start( TOOL1 )` ends in
STOPPED, having written TOOL1 and then STOPPED itself unless the file check
failed, in which case it has written nothing. -/
theorem return_to_stopped (m : Memcheck) (hv : m.view = true) :
    (∀ (procRunning ok : Bool) (m' : Memcheck), stop procRunning m = some (ok, m') →
      m'.runState = m.runState ∧ runStateWrites m'.trace = runStateWrites m.trace) ∧
    (∀ (cont : ParseContinue) (procRunning : Bool) (m' : Memcheck),
      readVgLog cont procRunning m = some m' →
      m'.runState = m.runState ∧ runStateWrites m'.trace = runStateWrites m.trace) ∧
    (∀ (rs : RunState) (env : Env) (flags : List String) (ok : Bool) (m' : Memcheck),
      (rs = .VALGRIND ∨ rs = .TOOL2) → start rs env flags m = some (ok, m') →
      (ok = true ∧ m'.runState = rs ∧
        runStateWrites m'.trace = runStateWrites m.trace ++ [rs]) ∨
      (ok = false ∧ m'.runState = .STOPPED ∧
        runStateWrites m'.trace = runStateWrites m.trace ++ [rs, .STOPPED])) ∧
    (∀ (env : Env) (flags : List String) (ok : Bool) (m' : Memcheck),
      start .TOOL1 env flags m = some (ok, m') →
      m'.runState = .STOPPED ∧
      ((ok = false ∧ env.log.errval ≠ env.log.PARSED_OK ∧
          runStateWrites m'.trace = runStateWrites m.trace) ∨
       (env.log.errval = env.log.PARSED_OK ∧
          runStateWrites m'.trace = runStateWrites m.trace ++ [.TOOL1, .STOPPED]))) ∧
    (∀ (cont : ParseContinue) (procRunning : Bool) (exitCode : Int) (m' : Memcheck),
      processDone cont procRunning exitCode m = some m' →
      m'.runState = .STOPPED ∧
      runStateWrites m'.trace = runStateWrites m.trace ++ [.STOPPED]) := by
  refine ⟨?_, ?_, ?_, ?_, ?_⟩
  · intro procRunning ok m' hop
    rw [(stop_some procRunning m m' ok hop).2.2]
    refine ⟨rfl, ?_⟩
    simp only [runStateWrites_append]
    split_ifs <;> simp [runStateWrites]
  · intro cont procRunning m' hop
    obtain ⟨p, rd, _, _, _, hm⟩ := readVgLog_some cont procRunning m m' hop
    rw [hm]
    refine ⟨rfl, ?_⟩
    simp only [runStateWrites_append]
    split_ifs <;> simp [runStateWrites]
  · intro rs env flags ok m' hrs hop
    obtain ⟨_, _, h3⟩ := start_backed_some rs env flags m m' ok hrs hop
    rcases h3 with h3 | h3
    · exact Or.inl ⟨h3.1, h3.2.1, h3.2.2.2.2.2.2⟩
    · exact Or.inr ⟨h3.1, h3.2.1, h3.2.2.2.2.2.2⟩
  · intro env flags ok m' hop
    obtain ⟨_, h2, _, _, _, _, h7⟩ := start_tool1_some env flags m m' ok hop
    refine ⟨h2, ?_⟩
    rcases h7 with h7 | h7
    · exact Or.inl ⟨h7.1, h7.2.1, h7.2.2.2.2⟩
    · exact Or.inr ⟨h7.2.1, h7.2.2.2⟩
  · intro cont procRunning exitCode m' hop
    obtain ⟨_, h2, _, _, _, _, _, _, h9⟩ :=
      processDone_some cont procRunning exitCode m m' hv hop
    exact ⟨h2, h9⟩

/-- C8, amended, at a concrete input: `processDone` on the run of
`sampleStarted`. -/
theorem return_to_stopped_witness :
    ∃ m', processDone (fun _ => (true, ⟨true, ""⟩)) false 0 (sampleStarted ["--flag=1"])
        = some m' ∧
      m'.runState = .STOPPED ∧
      runStateWrites m'.trace =
        runStateWrites (sampleStarted ["--flag=1"]).trace ++ [.STOPPED] :=
  have hop := processDone_eq (fun _ => (true, ⟨true, ""⟩)) false 0
    (sampleStarted ["--flag=1"]) ⟨["--flag=1"], some 0⟩ ⟨⟨false, ""⟩⟩ rfl rfl rfl
  ⟨_, hop, (return_to_stopped (sampleStarted ["--flag=1"]) rfl).2.2.2.2 _ _ _ _ hop⟩

/-! ## Saving the log -/

/-- C9: for a target path that does not exist yet, the source file being there
and the file system letting the operation through, `saveParsedOutput` returns
true with the saved flag true and the file name equal to the absolute target
path, and the target exists afterwards.  Which operation it makes depends on
the saved flag alone: with the flag false it renames the file (one `rename`
call; the file is no longer at its old path), with the flag true it copies it
(one `copy` call; the file is still at its old path). -/
theorem save_renames_or_copies (env : SaveEnv) (fname : String) (m : Memcheck)
    (disk : Disk) (hv : m.view = true) (hn : fname ≠ "")
    (hx : env.absFilePath fname ∉ disk) (hsrc : m.saveFname ∈ disk)
    (hio : env.ioOk = true) :
    ∃ m' disk', saveParsedOutput env fname m disk = some (true, m', disk') ∧
      m'.fileSaved = true ∧ m'.saveFname = env.absFilePath fname ∧
      m'.runState = m.runState ∧ env.absFilePath fname ∈ disk' ∧
      (m.fileSaved = false →
        m'.trace = m.trace ++ [.rename m.saveFname (env.absFilePath fname),
          .message ("Saved" ++ ": " ++ env.absFilePath fname)] ∧
        m.saveFname ∉ disk') ∧
      (m.fileSaved = true →
        m'.trace = m.trace ++ [.copy m.saveFname (env.absFilePath fname),
          .message ("Saved" ++ ": " ++ env.absFilePath fname)] ∧
        m.saveFname ∈ disk') := by
  obtain ⟨rs, fs, sf, vp, vr, la, vw, tr⟩ := m
  simp only at hv hsrc
  subst hv
  have hne : sf ≠ env.absFilePath fname := fun h => hx (h ▸ hsrc)
  cases fs <;>
    simp only [saveParsedOutput, diskRename, diskCopy, statusMsg, emit, hn, hx, hsrc, hio,
      if_false, if_true, decide_False, decide_True, Bool.false_eq_true, false_and,
      and_self, reduceCtorEq] <;>
    refine ⟨_, _, rfl, ?_⟩ <;>
    simp [hne, hsrc]

/-- C9, at a concrete input: a first save, which renames the temp file. -/
theorem save_renames_or_copies_witness :
    ∃ m' disk',
      saveParsedOutput (sampleSave true) "/home/run.xml" sampleUnsaved
        ["/logs/mc_log_0001.xml"] = some (true, m', disk') ∧
      m'.fileSaved = true ∧ m'.saveFname = "/home/run.xml" ∧
      "/home/run.xml" ∈ disk' ∧ "/logs/mc_log_0001.xml" ∉ disk' := by
  obtain ⟨m', disk', h1, h2, h3, _, h5, h6, _⟩ :=
    save_renames_or_copies (sampleSave true) "/home/run.xml" sampleUnsaved
      ["/logs/mc_log_0001.xml"] rfl (by decide) (by decide) (by decide) rfl
  exact ⟨m', disk', h1, h2, h3, h5, (h6 rfl).2⟩

/-- C10, the code at the failing input: the log was saved to `/home/run.xml`
before and is now saved to `/home/second.xml`, and the copy does not go
through.  `saveParsedOutput` returns true all the same, emits "Saved" and no
failure report, and sets the file name to the new path, where no file is. -/
theorem failed_copy_is_reported_as_saved :
    ∃ m', saveParsedOutput (sampleSave false) "/home/second.xml" sampleSaved
        ["/home/run.xml"] = some (true, m', ["/home/run.xml"]) ∧
      m'.fileSaved = true ∧ m'.saveFname = "/home/second.xml" ∧
      m'.saveFname ≠ sampleSaved.saveFname ∧
      m'.trace = [.copy "/home/run.xml" "/home/second.xml",
        .message "Saved: /home/second.xml"] ∧
      "/home/second.xml" ∉ ["/home/run.xml"] :=
  ⟨_, rfl, by decide, by decide, by decide, by decide, by decide⟩

/-! ## Stopping a run -/

/-- C11: in every running state of a consistent object `stop` returns true and
leaves the run state, the process, the reader, the poller, the saved flag and
the file name as they were; all it does is one stop request to the process,
made exactly when the state is VALGRIND or TOOL2 and the process is running
(none in state TOOL1).  A `processDone` that follows does the whole of its work
(the events it adds are those it would have added without the `stop`) and ends
in state STOPPED with the process and the reader gone and the poller stopped. -/
theorem stop_is_a_request (procRunning : Bool) (m : Memcheck) (hc : Consistent m)
    (hv : m.view = true) (hs : m.runState ≠ .STOPPED) :
    ∃ m', stop procRunning m = some (true, m') ∧
      m'.runState = m.runState ∧ m'.vgproc = m.vgproc ∧ m'.vgreader = m.vgreader ∧
      m'.logpollerActive = m.logpollerActive ∧ m'.fileSaved = m.fileSaved ∧
      m'.saveFname = m.saveFname ∧
      m'.trace = m.trace ++
        (if (m.runState = .VALGRIND ∨ m.runState = .TOOL2) ∧ procRunning = true then
          [.procStop] else []) ∧
      (m.runState = .TOOL1 → m'.trace = m.trace) ∧
      (∀ (cont : ParseContinue) (exited : Bool) (exitCode : Int),
        (m.runState = .VALGRIND ∨ m.runState = .TOOL2) →
        ∃ m0 m2 new,
          processDone cont exited exitCode m = some m0 ∧
          processDone cont exited exitCode m' = some m2 ∧
          m0.trace = m.trace ++ new ∧ m2.trace = m'.trace ++ new ∧
          m2.runState = .STOPPED ∧ m2.vgproc = none ∧ m2.vgreader = none ∧
          m2.logpollerActive = false ∧ m2.fileSaved = m.fileSaved) := by
  obtain ⟨c1, c2, c3⟩ := hc
  have hex : ∃ m', stop procRunning m = some (true, m') := by
    obtain ⟨rs, fs, sf, vp, vr, la, vw, tr⟩ := m
    cases rs <;> cases vp <;> cases procRunning <;> simp [stop, isRunning] at hs ⊢
  obtain ⟨m', hop⟩ := hex
  have hm := (stop_some procRunning m m' true hop).2.2
  have hif : ((m.runState = .VALGRIND ∨ m.runState = .TOOL2) ∧ m.vgproc ≠ none ∧
      procRunning = true) ↔
      ((m.runState = .VALGRIND ∨ m.runState = .TOOL2) ∧ procRunning = true) := by
    constructor
    · exact fun h => ⟨h.1, h.2.2⟩
    · intro h
      refine ⟨h.1, ?_, h.2⟩
      have hp : m.vgproc.isSome = true := c2.mpr h.1
      intro hn
      simp [hn] at hp
  simp only [hif] at hm
  refine ⟨m', hop, ?_⟩
  subst hm
  refine ⟨rfl, rfl, rfl, rfl, rfl, rfl, rfl, ?_, ?_⟩
  · intro ht
    simp [ht]
  · intro cont exited exitCode hrun
    have hp : m.vgproc.isSome = true := c2.mpr hrun
    have hr : m.vgreader.isSome = true := c1 ▸ hp
    obtain ⟨p, hp'⟩ := Option.isSome_iff_exists.mp hp
    obtain ⟨rd, hr'⟩ := Option.isSome_iff_exists.mp hr
    exact ⟨_, _, _, processDone_eq cont exited exitCode m p rd hv hp' hr',
      processDone_eq cont exited exitCode _ p rd hv hp' hr', rfl, rfl, rfl, rfl, rfl,
      rfl, rfl⟩

/-- C11, at a concrete input: `stop` on the run of `sampleStarted` while the
process is running. -/
theorem stop_is_a_request_witness :
    ∃ m', stop true (sampleStarted ["--flag=1"]) = some (true, m') ∧
      m'.runState = .VALGRIND ∧
      m'.vgproc = (sampleStarted ["--flag=1"]).vgproc ∧
      m'.trace = (sampleStarted ["--flag=1"]).trace ++ [.procStop] := by
  obtain ⟨m', h1, h2, h3, _, _, _, _, h8, _⟩ :=
    stop_is_a_request true (sampleStarted ["--flag=1"])
      (by simp [Consistent, sampleStarted]) rfl (by decide)
  exact ⟨m', h1, h2, h3, h8⟩

/-! ## Parsing a log that cannot be read -/

/-- C12: when the file check of the configured log fails, `start( TOOL1 )`,
called on a stopped object, returns false; it has emitted the "Parsing" status
message and exactly one error report, titled "File Error"; it has not called
`setRunState` at all, so the state is STOPPED throughout; the saved flag, the
file name, the process, the reader and the poller are as they were. -/
theorem unreadable_log_is_rejected (env : Env) (flags : List String) (m : Memcheck)
    (hs : m.runState = .STOPPED) (hv : m.view = true)
    (he : env.log.errval ≠ env.log.PARSED_OK) :
    ∃ m', start .TOOL1 env flags m = some (false, m') ∧
      m'.trace = m.trace ++
        [.message ("Parsing" ++ ": " ++ env.log.rdEntry "view-log" "valkyrie"),
         .vkError "File Error" "%s: \n\"%s\""
           [.parseErrString env.log.errval,
            .escapeEntities (env.log.rdEntry "view-log" "valkyrie")]] ∧
      errorReports m'.trace = errorReports m.trace ++
        [.vkError "File Error" "%s: \n\"%s\""
           [.parseErrString env.log.errval,
            .escapeEntities (env.log.rdEntry "view-log" "valkyrie")]] ∧
      runStateWrites m'.trace = runStateWrites m.trace ∧
      m'.runState = .STOPPED ∧ m'.fileSaved = m.fileSaved ∧
      m'.saveFname = m.saveFname ∧ m'.vgproc = m.vgproc ∧
      m'.vgreader = m.vgreader ∧ m'.logpollerActive = m.logpollerActive := by
  obtain ⟨rs, fs, sf, vp, vr, la, vw, tr⟩ := m
  simp only at hs hv
  subst hs hv
  refine ⟨⟨.STOPPED, fs, sf, vp, vr, la, true, tr ++
      [.message ("Parsing" ++ ": " ++ env.log.rdEntry "view-log" "valkyrie"),
       .vkError "File Error" "%s: \n\"%s\""
         [.parseErrString env.log.errval,
          .escapeEntities (env.log.rdEntry "view-log" "valkyrie")]]⟩,
    ?_, rfl, ?_, ?_, rfl, rfl, rfl, rfl, rfl, rfl⟩
  · simp [start, isRunning, parseLogFile, parseLogFileCheck, statusMsg, emit, he]
  · simp [errorReports]
  · simp [runStateWrites]

/-- C12, at a concrete input: the configured log `/no/such.xml` fails the file
check. -/
theorem unreadable_log_is_rejected_witness :
    ∃ m', start .TOOL1 sampleEnvMissing [] Memcheck.init = some (false, m') ∧
      errorReports m'.trace =
        [.vkError "File Error" "%s: \n\"%s\""
           [.parseErrString 2, .escapeEntities "/no/such.xml"]] ∧
      runStateWrites m'.trace = [.STOPPED] ∧ m'.runState = .STOPPED ∧
      m'.fileSaved = true ∧ m'.saveFname = "" := by
  obtain ⟨m', h1, _, h3, h4, h5, h6, h7, _⟩ :=
    unreadable_log_is_rejected sampleEnvMissing [] Memcheck.init rfl rfl (by decide)
  exact ⟨m', h1, h3, h4, h5, h6, h7⟩

/-! ## New data in the log -/

/-- C13: in a consistent object with a process-backed run (state VALGRIND or
TOOL2) `readVgLog` returns; it has called `parseContinue` exactly once and has
asked the process to stop if and only if that call returned false and the
process is running; it has emitted no status message, raised no error report
and not written the run state; the state, the process, the poller, the saved
flag and the file name are as they were, and the reader is still there, its
handler being what `parseContinue` left. -/
theorem readVgLog_reads_once (cont : ParseContinue) (procRunning : Bool) (m : Memcheck)
    (hc : Consistent m) (hv : m.view = true)
    (hs : m.runState = .VALGRIND ∨ m.runState = .TOOL2) :
    ∃ m' rd new, m.vgreader = some rd ∧ readVgLog cont procRunning m = some m' ∧
      m'.trace = m.trace ++ new ∧
      new = .parseContinue ::
        (if (cont rd.handler).1 = false ∧ procRunning = true then [.procStop] else []) ∧
      new.count .parseContinue = 1 ∧
      (Event.procStop ∈ new ↔ ((cont rd.handler).1 = false ∧ procRunning = true)) ∧
      messages new = [] ∧ errorReports new = [] ∧ runStateWrites new = [] ∧
      m'.runState = m.runState ∧ m'.vgproc = m.vgproc ∧
      m'.vgreader = some ⟨(cont rd.handler).2⟩ ∧
      m'.logpollerActive = m.logpollerActive ∧ m'.fileSaved = m.fileSaved ∧
      m'.saveFname = m.saveFname := by
  obtain ⟨c1, c2, c3⟩ := hc
  have hp : m.vgproc.isSome = true := c2.mpr hs
  have hr : m.vgreader.isSome = true := c1 ▸ hp
  obtain ⟨p, hp'⟩ := Option.isSome_iff_exists.mp hp
  obtain ⟨rd, hr'⟩ := Option.isSome_iff_exists.mp hr
  refine ⟨_, rd, _, hr', readVgLog_eq cont procRunning m p rd hv hp' hr', rfl, rfl,
    ?_, ?_, ?_, ?_, ?_, rfl, rfl, rfl, rfl, rfl, rfl⟩
  · split_ifs <;> simp
  · split_ifs with h <;> simp [h]
  · split_ifs <;> simp [messages]
  · split_ifs <;> simp [errorReports]
  · split_ifs <;> simp [runStateWrites]

/-- C13, at a concrete input: the read fails while the process is running. -/
theorem readVgLog_reads_once_witness :
    ∃ m', readVgLog (fun _ => (false, ⟨false, "not well-formed"⟩)) true
        (sampleStarted ["--flag=1"]) = some m' ∧
      m'.trace = (sampleStarted ["--flag=1"]).trace ++ [.parseContinue, .procStop] ∧
      m'.runState = .VALGRIND := by
  obtain ⟨m', rd, new, h1, h2, h3, h4, _, _, _, _, _, h10, _⟩ :=
    readVgLog_reads_once (fun _ => (false, ⟨false, "not well-formed"⟩)) true
      (sampleStarted ["--flag=1"]) (by simp [Consistent, sampleStarted]) rfl
      (Or.inl rfl)
  refine ⟨m', h2, ?_, h10⟩
  rw [h3, h4]
  simp

/-! ## The flags that differ from their defaults -/

/-- The loop of `modifiedVgFlags` from any accumulator: the accumulator,
followed by the flag strings of the options that contribute. -/
theorem modifiedVgFlags_foldl (rdEntry : String → String → String) (name : String)
    (opts : List VkOption) (acc : List String) :
    opts.foldl (fun modFlags opt =>
      match opt.m_key with
      | .LEAK_CHECK => modFlags
      | _ =>
        if opt.m_defaultValue ≠ rdEntry opt.m_longFlag name then
          modFlags ++ ["--" ++ opt.m_longFlag ++ "=" ++ rdEntry opt.m_longFlag name]
        else modFlags) acc =
      acc ++ (opts.filter (isModified rdEntry name)).map (flagString rdEntry name) := by
  induction opts generalizing acc with
  | nil => simp
  | cons o rest ih =>
    rw [List.foldl_cons, ih]
    obtain ⟨k, sh, lf, dv⟩ := o
    by_cases hd : dv = rdEntry lf name <;> cases k <;>
      simp [isModified, flagString, hd]

/-- C14: for every option list and every config store, `modifiedVgFlags`
returns, in the order of the option list, the string `--` + long flag + `=` +
configured value of each option that is not LEAK_CHECK and whose configured
value differs from its default, and nothing else.  It is empty when every
option other than LEAK_CHECK has its default value; a LEAK_CHECK option
contributes nothing whatever its configured value; and for the option list of
Memcheck the result holds no `--leak-check=` flag, whatever the config store. -/
theorem modifiedVgFlags_spec (rdEntry : String → String → String) (name : String)
    (opts : List VkOption) :
    modifiedVgFlags rdEntry name opts =
      (opts.filter (fun o => decide (o.m_key ≠ .LEAK_CHECK) &&
          decide (o.m_defaultValue ≠ rdEntry o.m_longFlag name))).map
        (fun o => "--" ++ o.m_longFlag ++ "=" ++ rdEntry o.m_longFlag name) ∧
    ((∀ o ∈ opts, o.m_key ≠ .LEAK_CHECK → rdEntry o.m_longFlag name = o.m_defaultValue) →
      modifiedVgFlags rdEntry name opts = []) ∧
    (∀ (o : VkOption) (pre post : List VkOption), o.m_key = .LEAK_CHECK →
      modifiedVgFlags rdEntry name (pre ++ o :: post) =
        modifiedVgFlags rdEntry name (pre ++ post)) ∧
    (∀ v : String, "--leak-check=" ++ v ∉ modifiedVgFlags rdEntry name memcheckOpts) := by
  have heq : ∀ l, modifiedVgFlags rdEntry name l =
      (l.filter (isModified rdEntry name)).map (flagString rdEntry name) := by
    intro l
    have h := modifiedVgFlags_foldl rdEntry name l []
    simpa [modifiedVgFlags] using h
  refine ⟨heq opts, ?_, ?_, ?_⟩
  · intro hall
    rw [heq]
    have hnone : opts.filter (isModified rdEntry name) = [] := by
      rw [List.filter_eq_nil_iff]
      intro o ho
      by_cases hk : o.m_key = .LEAK_CHECK
      · simp [isModified, hk]
      · simp [isModified, hall o ho hk]
    rw [hnone]
    rfl
  · intro o pre post hk
    rw [heq, heq]
    simp [List.filter_append, List.filter_cons, isModified, hk]
  · intro v hmem
    rw [heq] at hmem
    obtain ⟨o, ho, hf⟩ := List.mem_map.mp hmem
    obtain ⟨hin, hmod⟩ := List.mem_filter.mp ho
    have hd := congrArg String.data hf
    simp only [memcheckOpts, List.mem_cons, List.mem_singleton, List.not_mem_nil,
      or_false] at hin
    rcases hin with h | h | h | h | h | h | h | h <;> subst h <;>
      simp [isModified, flagString] at hmod hd

end Valkyrie
